import Mathlib

/-!
# Verification of the Jellyfin SQLite extractor (src/extractor.py)

A shallow embedding of the extractor's record-normalization engine.
Python dynamic values are modelled by `PyVal`, rows by total functions
from column name to value, exceptions by `Except String` (the string
names the Python exception class), and `dict` by an association list
with insert-overwrite semantics matching Python insertion order.
-/

/-- A Python dict key as it occurs in this program: `None` or a string. -/
inductive PyKey where
  | knone : PyKey
  | kstr : String → PyKey
deriving DecidableEq, Repr

/-- A Python value as it occurs in this program.  Byte strings carry only
their UTF-8 decoding (`none` when the bytes are not valid UTF-8); two
distinct undecodable byte strings are conflated, which no claim observes. -/
inductive PyVal where
  | pnone : PyVal
  | pbool : Bool → PyVal
  | pint : Int → PyVal
  | pstr : String → PyVal
  | pbytes : Option String → PyVal
  | plist : List PyVal → PyVal
  | pdict : List (PyKey × PyVal) → PyVal
deriving Repr

/-- Association-list model of a Python `dict` (insertion ordered). -/
abbrev PyDict := List (PyKey × PyVal)

/-- `d[k]` lookup: first (and, by construction, only) binding of `k`. -/
def pyGet : PyDict → PyKey → Option PyVal
  | [], _ => Option.none
  | (k', v) :: rest, k => if k' = k then some v else pyGet rest k

/-- `d[k] = v`: overwrite in place if present, else append (Python
insertion-order semantics). -/
def pySet : PyDict → PyKey → PyVal → PyDict
  | [], k, v => [(k, v)]
  | (k', v') :: rest, k, v =>
    if k' = k then (k, v) :: rest else (k', v') :: pySet rest k v

/-- `del d[k]`: remove the binding of `k`.  Dicts built by `pySet` bind each
key once, so removing every binding coincides with Python's single-entry
removal. -/
def pyDel : PyDict → PyKey → PyDict
  | [], _ => []
  | (k', v) :: rest, k =>
    if k' = k then pyDel rest k else (k', v) :: pyDel rest k

/-- Python truthiness for the values of this program. -/
def pyTruthy : PyVal → Bool
  | .pnone => false
  | .pbool b => b
  | .pint i => i ≠ 0
  | .pstr s => s ≠ ""
  | .pbytes _ => true
  | .plist xs => !xs.isEmpty
  | .pdict d => !d.isEmpty

/-- `str.strip()` with no argument: drop leading and trailing whitespace. -/
def pyStrip (s : String) : String :=
  ⟨((s.data.dropWhile Char.isWhitespace).reverse.dropWhile Char.isWhitespace).reverse⟩

/-- Value of a decimal digit list, most significant first. -/
def digitsVal (ds : List Char) : Nat :=
  ds.foldl (fun a c => a * 10 + (c.toNat - 48)) 0

/-- `int(s)` on a string: strip whitespace, optional sign, decimal digits;
anything else raises `ValueError`.  (CPython additionally allows
underscores between digits; such inputs do not occur here.) -/
def pyInt (s : String) : Except String Int :=
  let t := (s.data.dropWhile Char.isWhitespace).reverse.dropWhile Char.isWhitespace |>.reverse
  let core : List Char → Except String Nat := fun ds =>
    if ds ≠ [] ∧ ds.all Char.isDigit then .ok (digitsVal ds) else .error "ValueError"
  match t with
  | '+' :: ds => (core ds).map (fun n => (n : Int))
  | '-' :: ds => (core ds).map (fun n => -(n : Int))
  | ds => (core ds).map (fun n => (n : Int))

/-- `str.split(sep)` on a one-character separator, over the character
list: splitting the empty text yields one empty piece, and consecutive
separators yield empty pieces, as in Python. -/
def splitOnChar (sep : Char) : List Char → List (List Char)
  | [] => [[]]
  | c :: rest =>
    if c = sep then [] :: splitOnChar sep rest
    else
      match splitOnChar sep rest with
      | [] => [[c]]
      | h :: t => (c :: h) :: t

/-- `str.split(sep)` on strings (every separator in this program is a
single character). -/
def pySplit (s : String) (sep : Char) : List String :=
  (splitOnChar sep s.data).map (fun l => ⟨l⟩)

/-! ## Identifier Codec: `toUUID` / `uuidFormat` (src lines 118-126) -/

/-- Lowercase hexadecimal digit. -/
def isLowerHex (c : Char) : Bool :=
  c.isDigit || ('a' ≤ c && c ≤ 'f')

/-- Any-case hexadecimal digit. -/
def isHexChar (c : Char) : Bool :=
  c.isDigit || ('a' ≤ c && c ≤ 'f') || ('A' ≤ c && c ≤ 'F')

/-- Fuelled worker for `replaceDel`; the fuel only bounds recursion depth
and is always at least the list length at the top call. -/
def replaceDelF (p : Char) (ps : List Char) : Nat → List Char → List Char
  | 0, l => l
  | _ + 1, [] => []
  | fuel + 1, c :: rest =>
    if (p :: ps).isPrefixOf (c :: rest) then
      replaceDelF p ps fuel (rest.drop ps.length)
    else c :: replaceDelF p ps fuel rest

/-- `str.replace(pat, '')`: delete every non-overlapping occurrence of the
nonempty pattern `p :: ps`, left to right. -/
def replaceDel (p : Char) (ps : List Char) (l : List Char) : List Char :=
  replaceDelF p ps l.length l

/-- `str.strip('{}')`: drop leading and trailing brace characters. -/
def stripBraces (l : List Char) : List Char :=
  ((l.dropWhile (fun c => c = '{' ∨ c = '}')).reverse.dropWhile
    (fun c => c = '{' ∨ c = '}')).reverse

/-- The cleaning performed by `uuid.UUID(hex)` on its argument:
delete `urn:` and `uuid:`, strip braces, delete hyphens. -/
def uuidClean (l : List Char) : List Char :=
  (stripBraces (replaceDel 'u' ['u', 'i', 'd', ':']
    (replaceDel 'u' ['r', 'n', ':'] l))).filter (fun c => c ≠ '-')

/-- Numeric value of one hexadecimal digit. -/
def hexDigitVal (c : Char) : Nat :=
  if c.isDigit then c.toNat - 48
  else if 'a' ≤ c ∧ c ≤ 'f' then c.toNat - 87
  else c.toNat - 55

/-- Numeric value of a hex-digit list, most significant first. -/
def hexListVal (l : List Char) : Nat :=
  l.foldl (fun a c => a * 16 + hexDigitVal c) 0

/-- Lowercase hex digit of a value below 16 (`%x` formatting). -/
def toHexChar (n : Nat) : Char :=
  if n < 10 then Char.ofNat (48 + n) else Char.ofNat (87 + n)

/-- `'%032x' % v`: the 32 lowercase hex digits of `v`, most significant
first (leading zeros kept). -/
def renderHex32 (v : Nat) : List Char :=
  (List.range 32).map (fun i => toHexChar (v / 16 ^ (31 - i) % 16))

/-- Insert hyphens after digits 8, 12, 16 and 20 (the `str(uuid.UUID)`
8-4-4-4-12 layout). -/
def uuidHyphenate (l : List Char) : List Char :=
  l.take 8 ++ '-' :: ((l.drop 8).take 4 ++ '-' :: (((l.drop 8).drop 4).take 4 ++
    '-' :: ((((l.drop 8).drop 4).drop 4).take 4 ++
      '-' :: ((((l.drop 8).drop 4).drop 4).drop 4))))

/-- `uuidFormat(s) = str(uuid.UUID(s))` (src line 125): clean the input,
require 32 hex digits, and render the canonical hyphenated lowercase
string of their value; otherwise `ValueError`.  (CPython's `int(hex, 16)`
also tolerates a leading sign or underscores inside the 32 characters;
such inputs never arise from quoted blob literals and are not modelled.) -/
def uuidFormat (s : String) : Except String String :=
  let hex := uuidClean s.data
  if hex.length = 32 ∧ hex.all isHexChar then
    .ok ⟨uuidHyphenate (renderHex32 (hexListVal hex))⟩
  else .error "ValueError"

/-- Python `s[2:-1]` on a string. -/
def pySlice2m1 (s : String) : String :=
  ⟨(s.data.drop 2).dropLast⟩

/-- `toUUID` (src lines 118-122) on a row cell.  The quoted-blob columns it
is applied to always hold text or SQL null; a non-string, non-null cell
would raise `TypeError` at `len(s)`. -/
def toUUID : PyVal → Except String (Option String)
  | .pnone => .ok Option.none
  | .pstr s =>
    if s = "" ∨ s = "NULL" ∨ s.length < 4 then .ok Option.none
    else (uuidFormat (pySlice2m1 s)).map some
  | .pint i => if i = 0 then .ok Option.none else .error "TypeError"
  | .pbool b => if b then .error "TypeError" else .ok Option.none
  | .pbytes _ => .error "TypeError"
  | .plist xs => if xs.isEmpty then .ok Option.none else .error "TypeError"
  | .pdict d => if d.isEmpty then .ok Option.none else .error "TypeError"

/-- Shape check for a canonical UUID string: chunks of the given lengths of
lowercase hex digits, separated by single hyphens. -/
def checkChunks : List Nat → List Char → Bool
  | [], l => l = []
  | [n], l => l.length = n && l.all isLowerHex
  | n :: m :: ns, l =>
    ((l.take n).length = n && (l.take n).all isLowerHex) &&
      match l.drop n with
      | '-' :: rest => checkChunks (m :: ns) rest
      | _ => false

/-- Canonical lowercase hyphenated 8-4-4-4-12 UUID string. -/
def isCanonicalUUID (s : String) : Bool :=
  checkChunks [8, 4, 4, 4, 12] s.data

/-! ## Composite field decoders: `toList`, `toDict`, `toInt` (src 184-204) -/

/-- `toList(obj, field, '|')` (src lines 184-187): empty/absent cell gives
`[]`; text splits on the pipe.  A truthy non-string cell would raise
`AttributeError` at `.split`. -/
def toList : PyVal → Except String (List String)
  | .pnone => .ok []
  | .pstr s => if s = "" then .ok [] else .ok (pySplit s '|')
  | .pint i => if i = 0 then .ok [] else .error "AttributeError"
  | .pbool b => if b then .error "AttributeError" else .ok []
  | .pbytes _ => .error "AttributeError"
  | .plist xs => if xs.isEmpty then .ok [] else .error "AttributeError"
  | .pdict d => if d.isEmpty then .ok [] else .error "AttributeError"

/-- One `k, v = item.split('=')` destructuring step of `toDict`. -/
def toDictStep (d : PyDict) (item : String) : Except String PyDict :=
  match pySplit item '=' with
  | [k, v] => .ok (pySet d (.kstr k) (.pstr v))
  | _ => .error "ValueError"

/-- `toDict(obj, field, '|')` (src lines 190-197): empty/absent cell gives
the empty *list* (the documented inconsistency); otherwise a dict built by
splitting each pipe segment on `=`. -/
def toDict : PyVal → Except String PyVal
  | .pnone => .ok (.plist [])
  | .pstr s =>
    if s = "" then .ok (.plist [])
    else ((pySplit s '|').foldlM toDictStep []).map .pdict
  | .pint i => if i = 0 then .ok (.plist []) else .error "AttributeError"
  | .pbool b => if b then .error "AttributeError" else .ok (.plist [])
  | .pbytes _ => .error "AttributeError"
  | .plist xs => if xs.isEmpty then .ok (.plist []) else .error "AttributeError"
  | .pdict d => if d.isEmpty then .ok (.plist []) else .error "AttributeError"

/-- `toInt` (src lines 200-204): `int(obj)` with a default on `ValueError`.
Defined in the source but called nowhere. -/
def toInt (obj : String) (default : Int) : Int :=
  match pyInt obj with
  | .ok i => i
  | .error _ => default

/-! ## Minimal JSON decoder modelling `json.loads` on payload text

The extractor's payloads are JSON objects of strings, integers, booleans,
nulls, arrays and objects.  String escapes and floating-point numbers do
not occur in the fields the claims touch and are modelled as decode
errors. -/

/-- Drop JSON whitespace. -/
def jsonSkipWs (l : List Char) : List Char :=
  l.dropWhile (fun c => c = ' ' || c = '\n' || c = '\t' || c = '\r')

/-- Parse a JSON string body after the opening quote: the characters up to
the closing quote, rejecting backslash escapes. -/
def jsonString (l : List Char) : Except String (String × List Char) :=
  let body := l.takeWhile (fun c => c ≠ '"')
  if body.any (fun c => c = '\\') then .error "JSONDecodeError"
  else
    match l.drop body.length with
    | '"' :: rest => .ok (⟨body⟩, rest)
    | _ => .error "JSONDecodeError"

mutual

/-- Parse one JSON value (fuelled recursive descent). -/
def jsonVal : Nat → List Char → Except String (PyVal × List Char)
  | 0, _ => .error "JSONDecodeError"
  | fuel + 1, l =>
    match jsonSkipWs l with
    | 'n' :: 'u' :: 'l' :: 'l' :: rest => .ok (.pnone, rest)
    | 't' :: 'r' :: 'u' :: 'e' :: rest => .ok (.pbool true, rest)
    | 'f' :: 'a' :: 'l' :: 's' :: 'e' :: rest => .ok (.pbool false, rest)
    | '"' :: rest => (jsonString rest).map (fun p => (.pstr p.1, p.2))
    | '[' :: rest =>
      (match jsonSkipWs rest with
       | ']' :: rest' => .ok (.plist [], rest')
       | rest' => jsonArr fuel rest' [])
    | '{' :: rest =>
      (match jsonSkipWs rest with
       | '}' :: rest' => .ok (.pdict [], rest')
       | rest' => jsonObj fuel rest' [])
    | '-' :: rest =>
      let ds := rest.takeWhile Char.isDigit
      if ds.isEmpty then .error "JSONDecodeError"
      else .ok (.pint (-(digitsVal ds : Int)), rest.drop ds.length)
    | c :: rest =>
      if c.isDigit then
        let ds := (c :: rest).takeWhile Char.isDigit
        .ok (.pint (digitsVal ds : Int), (c :: rest).drop ds.length)
      else .error "JSONDecodeError"
    | [] => .error "JSONDecodeError"

/-- Parse the elements of a nonempty JSON array, accumulator in order. -/
def jsonArr : Nat → List Char → List PyVal → Except String (PyVal × List Char)
  | 0, _, _ => .error "JSONDecodeError"
  | fuel + 1, l, acc =>
    match jsonVal fuel l with
    | .error e => .error e
    | .ok (v, rest) =>
      match jsonSkipWs rest with
      | ',' :: rest' => jsonArr fuel rest' (acc ++ [v])
      | ']' :: rest' => .ok (.plist (acc ++ [v]), rest')
      | _ => .error "JSONDecodeError"

/-- Parse the members of a nonempty JSON object; duplicate keys keep the
last binding, as `json.loads` does. -/
def jsonObj : Nat → List Char → PyDict → Except String (PyVal × List Char)
  | 0, _, _ => .error "JSONDecodeError"
  | fuel + 1, l, acc =>
    match jsonSkipWs l with
    | '"' :: rest =>
      (match jsonString rest with
       | .error e => .error e
       | .ok (k, rest') =>
         match jsonSkipWs rest' with
         | ':' :: rest'' =>
           (match jsonVal fuel rest'' with
            | .error e => .error e
            | .ok (v, rest''') =>
              match jsonSkipWs rest''' with
              | ',' :: r => jsonObj fuel r (pySet acc (.kstr k) v)
              | '}' :: r => .ok (.pdict (pySet acc (.kstr k) v), r)
              | _ => .error "JSONDecodeError")
         | _ => .error "JSONDecodeError")
    | _ => .error "JSONDecodeError"

end

/-- `json.loads` on a payload string. -/
def jsonLoads (s : String) : Except String PyVal :=
  match jsonVal (s.data.length + 2) s.data with
  | .error e => .error e
  | .ok (v, rest) =>
    if (jsonSkipWs rest).isEmpty then .ok v else .error "JSONDecodeError"

/-! ## Field classification (src lines 242-278 and overrides) -/

/-- The canonical field names, in the iteration order of
`SQLITE_FIELDS_MAPPER.values()` (src lines 39-115). -/
def fieldsValues : List String :=
  ["album", "albumArtists", "artists", "audio", "channelId", "cleanName",
   "communityRating", "criticRating", "customRating", "data", "dateCreated",
   "dateLastMediaAdded", "dateLastRefreshed", "dateLastSaved", "dateModified",
   "endDate", "episodeTitle", "externalId", "externalSeriesId",
   "externalServiceId", "extraIds", "extraType", "forcedSortName", "genres",
   "height", "images", "indexNumber", "inheritedParentalRatingValue",
   "isFolder", "isInMixedFolder", "isLocked", "isMovie", "isRepeat",
   "isSeries", "isVirtualItem", "lockedFields", "mediaType", "name",
   "officialRating", "originalTitle", "overview", "ownerId",
   "parentIndexNumber", "path", "preferredMetadataCountryCode",
   "preferredMetadataLanguage", "premiereDate", "uniqueKey",
   "primaryVersionId", "productionLocations", "productionYear", "externalIds",
   "runTimeTicks", "seasonId", "seasonName", "seriesId", "seriesName",
   "seriesPresentationUniqueKey", "showId", "size", "sortName", "startDate",
   "studios", "tagline", "tags", "topParentId", "totalBitrate",
   "trailerTypes", "type", "unratedType", "userDataKey", "width", "parentId",
   "guid"]

/-- A raw `sqlite3.Row`, total over the selected canonical column names. -/
def ItemRow := String → PyVal

/-- `ParseStrategy.blob_fields` (src lines 242-249). -/
def blobFields : List String := ["guid", "parentId"]

/-- `ParseStrategy.date_fields` (src lines 251-258). -/
def dateFields : List String := ["dateCreated", "dateModified"]

/-- `ParseStrategy.dict_fields` (src lines 260-263). -/
def dictFields : List String := ["externalIds"]

/-- `ParseStrategy.text_fields` (src lines 271-278). -/
def baseTextFields : List String := ["path", "type"]

/-- `ParseStrategy.list_fields` (src lines 265-269). -/
def baseListFields : List String := []

/-- `BoxSetStrategy.text_fields` (src lines 351-358). -/
def boxsetTextFields : List String :=
  ["path", "type", "productionYear", "premiereDate", "officialRating"]

/-- `BoxSetStrategy.list_fields` (src lines 360-364). -/
def boxsetListFields : List String := ["genres", "studios"]

/-- `ParseTvStrategy.text_fields` (src lines 425-432). -/
def tvTextFields : List String :=
  ["productionYear", "premiereDate", "officialRating", "path", "tags"]

/-- `ParseTvStrategy.list_fields` (src lines 419-423). -/
def tvListFields : List String := ["genres", "studios"]

/-- `ParseTvEpisode.text_fields` (src lines 444-454). -/
def episodeTextFields : List String :=
  ["indexNumber", "parentIndexNumber", "productionYear", "premiereDate",
   "officialRating", "path", "type", "tags"]

/-! ## Shared strategy helpers (src lines 280-334) -/

/-- Render an optional identifier as a Python value. -/
def optStrVal : Option String → PyVal
  | Option.none => .pnone
  | some s => .pstr s

/-- Render a dict key as a Python value (iterating a dict yields its keys). -/
def keyVal : PyKey → PyVal
  | .knone => .pnone
  | .kstr s => .pstr s

/-- `get_names` (src lines 280-285): `item['name'].strip()` tagged with
locale `en`.  A null (or otherwise stripless) name raises
`AttributeError`; a byte-string name strips fine and stays a byte string. -/
def get_names (item : ItemRow) : Except String PyVal :=
  match item "name" with
  | .pstr s =>
    .ok (.plist [.pdict [(.kstr "name", .pstr (pyStrip s)),
      (.kstr "locale", .pstr "en")]])
  | .pbytes u =>
    .ok (.plist [.pdict [(.kstr "name", .pbytes (u.map pyStrip)),
      (.kstr "locale", .pstr "en")]])
  | _ => .error "AttributeError"

/-- One entry of `get_images` (src lines 290-296): split on `*`; the dict
literal takes `image[0]`, `image[-3]`, `int(image[-2])`, `int(image[-1])`.
Fewer than three tokens raises `IndexError`; non-numeric trailing tokens
raise `ValueError` at `int()`. -/
def decodeImage (data : String) : Except String PyVal :=
  let image := pySplit data '*'
  let n := image.length
  if n < 3 then .error "IndexError"
  else
    match pyInt (image.getD (n - 2) "") with
    | .error e => .error e
    | .ok hgt =>
      match pyInt (image.getD (n - 1) "") with
      | .error e => .error e
      | .ok wid =>
        .ok (.pdict [(.kstr "path", .pstr (image.headD "")),
          (.kstr "type", .pstr (image.getD (n - 3) "")),
          (.kstr "height", .pint hgt), (.kstr "width", .pint wid)])

/-- `get_images` (src lines 287-297). -/
def get_images (item : ItemRow) : Except String PyVal :=
  match toList (item "images") with
  | .error e => .error e
  | .ok entries => (entries.mapM decodeImage).map .plist

/-- The loop body of `parse_trailers`: accumulate
`{remote: True, url: item['Url']}` records; a missing `Url` raises
`KeyError`, caught by the enclosing handler with the appends made so far
kept (second component `false`); a non-dict element raises `TypeError`,
which is not caught. -/
def trailerLoop : List PyVal → List PyVal → Except String (List PyVal × Bool)
  | [], acc => .ok (acc, true)
  | itm :: rest, acc =>
    match itm with
    | .pdict dd =>
      match pyGet dd (.kstr "Url") with
      | some u =>
        trailerLoop rest
          (acc ++ [.pdict [(.kstr "remote", .pbool true), (.kstr "url", u)]])
      | Option.none => .ok (acc, false)
    | _ => .error "TypeError"

/-- `parse_trailers` (src lines 299-313).  `hasattr(data, 'files')` is false
for every plain dict, so `data['files']` is unconditionally replaced by a
fresh empty container.  A missing `data` or `RemoteTrailers` key is caught
by the `except KeyError` handler; iterating an empty string or empty dict
runs zero iterations and still deletes the key. -/
def parse_trailers (entity : PyDict) : Except String PyDict :=
  let e := pySet entity (.kstr "files") (.pdict [])
  match pyGet e (.kstr "data") with
  | Option.none => .ok e
  | some (.pdict dd) =>
    (match pyGet dd (.kstr "RemoteTrailers") with
     | Option.none => .ok e
     | some (.plist items) =>
       (match trailerLoop items [] with
        | .error err => .error err
        | .ok (trs, completed) =>
          let e1 := if trs.isEmpty then e
            else pySet e (.kstr "files") (.pdict [(.kstr "trailers", .plist trs)])
          if completed then
            .ok (pySet e1 (.kstr "data") (.pdict (pyDel dd (.kstr "RemoteTrailers"))))
          else .ok e1)
     | some (.pstr s) =>
       if s = "" then
         .ok (pySet e (.kstr "data") (.pdict (pyDel dd (.kstr "RemoteTrailers"))))
       else .error "TypeError"
     | some (.pdict dd2) =>
       if dd2.isEmpty then
         .ok (pySet e (.kstr "data") (.pdict (pyDel dd (.kstr "RemoteTrailers"))))
       else .error "TypeError"
     | some _ => .error "TypeError")
  | some _ => .error "TypeError"

/-- One field of the generic pass of `parse_common_fields`
(src lines 315-327), classified text / blob / date / list / dict in that
order; unclassified fields are skipped. -/
def classifyStep (tf lf : List String) (item : ItemRow) (e : PyDict)
    (key : String) : Except String PyDict :=
  if key ∈ tf then .ok (pySet e (.kstr key) (item key))
  else if key ∈ blobFields then
    (toUUID (item key)).map (fun u => pySet e (.kstr key) (optStrVal u))
  else if key ∈ dateFields then .ok (pySet e (.kstr key) (item key))
  else if key ∈ lf then
    (toList (item key)).map (fun xs => pySet e (.kstr key) (.plist (xs.map .pstr)))
  else if key ∈ dictFields then
    (toDict (item key)).map (fun v => pySet e (.kstr key) v)
  else .ok e

/-- `parse_common_fields` (src lines 315-327), parameterized by the
strategy's field classification and its (virtual) `parse_data`. -/
def parse_common_fields (tf lf : List String)
    (pd : ItemRow → PyDict → Except String PyDict) (item : ItemRow)
    (entity : PyDict) : Except String PyDict :=
  (fieldsValues.foldlM (classifyStep tf lf item) entity).bind (pd item)

/-- `ParseStrategy.parse_data` (src lines 329-334): decode the payload
column (UTF-8 first when bytes) with `json.loads`; a falsy payload leaves
`data` unset. -/
def base_parse_data (item : ItemRow) (entity : PyDict) : Except String PyDict :=
  match item "data" with
  | .pbytes (some s) => (jsonLoads s).map (fun v => pySet entity (.kstr "data") v)
  | .pbytes Option.none => .error "UnicodeDecodeError"
  | .pstr s =>
    if s = "" then .ok entity
    else (jsonLoads s).map (fun v => pySet entity (.kstr "data") v)
  | c => if pyTruthy c then .error "TypeError" else .ok entity

/-- `BoxSetStrategy.delete_data_keys` (src lines 366-372): best-effort
deletion from `entity['data']`; a missing `data` key or a missing payload
key is swallowed by the per-key `except KeyError`. -/
def delete_data_keys (entity : PyDict) (keys : List String) :
    Except String PyDict :=
  if keys.isEmpty then .ok entity
  else
    match pyGet entity (.kstr "data") with
    | some (.pdict dd) =>
      .ok (pySet entity (.kstr "data")
        (.pdict (keys.foldl (fun d k => pyDel d (.kstr k)) dd)))
    | Option.none => .ok entity
    | some _ => .error "TypeError"

/-- `entity['files'][k] = v`: requires `files` to be present (else
`KeyError`) and a dict. -/
def setFilesSub (entity : PyDict) (k : String) (v : PyVal) :
    Except String PyDict :=
  match pyGet entity (.kstr "files") with
  | some (.pdict f) =>
    .ok (pySet entity (.kstr "files") (.pdict (pySet f (.kstr k) v)))
  | Option.none => .error "KeyError"
  | some _ => .error "TypeError"

/-- `entity['files'][k].append(v)` on the `files` defaultdict: a missing
sub-key starts from the empty list. -/
def filesAppend (entity : PyDict) (k : String) (v : PyVal) :
    Except String PyDict :=
  match pyGet entity (.kstr "files") with
  | some (.pdict f) =>
    (match pyGet f (.kstr k) with
     | some (.plist xs) =>
       .ok (pySet entity (.kstr "files") (.pdict (pySet f (.kstr k) (.plist (xs ++ [v])))))
     | Option.none =>
       .ok (pySet entity (.kstr "files") (.pdict (pySet f (.kstr k) (.plist [v]))))
     | some _ => .error "AttributeError")
  | Option.none => .error "KeyError"
  | some _ => .error "TypeError"

/-! ## The parsing strategies (src lines 228-489) -/

/-- `ParseStrategy.parse` (src lines 336-346), the default strategy:
identity field pass, with blob fields decoded by `toUUID` and byte
strings decoded as UTF-8 with a `None` fallback (`_parse_bytes`). -/
def default_parse (item : ItemRow) : Except String PyDict :=
  fieldsValues.foldlM
    (fun e key =>
      if key ∈ blobFields then
        (toUUID (item key)).map (fun u => pySet e (.kstr key) (optStrVal u))
      else
        match item key with
        | .pbytes (some s) => .ok (pySet e (.kstr key) (.pstr s))
        | .pbytes Option.none => .ok (pySet e (.kstr key) .pnone)
        | v => .ok (pySet e (.kstr key) v)) []

/-- `ParsePersonStragegy.parse` (src lines 398-404). -/
def person_parse (item : ItemRow) : Except String PyDict := do
  let e ← parse_common_fields baseTextFields baseListFields base_parse_data
    item []
  let names ← get_names item
  .ok (pySet e (.kstr "names") names)

/-- `ParseGenreStrategy.parse` (src lines 407-414): a fresh `files`
container with the decoded images, then `names`, then the common pass. -/
def genre_parse (item : ItemRow) : Except String PyDict := do
  let imgs ← get_images item
  let e : PyDict := [(.kstr "files", .pdict [(.kstr "images", imgs)])]
  let names ← get_names item
  parse_common_fields baseTextFields baseListFields base_parse_data item
    (pySet e (.kstr "names") names)

/-- The `LinkedChildren` loop of `BoxSetStrategy.parse_data`
(src lines 380-384): each child keyed by `uuidFormat(item['ItemId'])`
with value `{'path': item['Path']}`.  A missing `ItemId` or `Path` raises
`KeyError` (uncaught); the assignment's right-hand side is evaluated
before the subscript, so the `Path` lookup precedes identifier decoding. -/
def kidsLoop : List PyVal → PyDict → Except String PyDict
  | [], acc => .ok acc
  | itm :: rest, acc =>
    match itm with
    | .pdict kd =>
      (match pyGet kd (.kstr "Path") with
       | Option.none => .error "KeyError"
       | some p =>
         match pyGet kd (.kstr "ItemId") with
         | Option.none => .error "KeyError"
         | some (.pstr s) =>
           (match uuidFormat s with
            | .error e => .error e
            | .ok u =>
              kidsLoop rest (pySet acc (.kstr u) (.pdict [(.kstr "path", p)])))
         | some _ => .error "AttributeError")
    | _ => .error "TypeError"

/-- The `LinkedChildren` block of `BoxSetStrategy.parse_data`
(src lines 379-385).  `entity['data']['LinkedChildren']` raises `KeyError`
when the payload lacks the key; a present but falsy (empty) list skips the
block, leaving `LinkedChildren` in the residual payload. -/
def boxset_children_stage (entity : PyDict) : Except String PyDict :=
  match pyGet entity (.kstr "data") with
  | Option.none => .error "KeyError"
  | some (.pdict dd) =>
    (match pyGet dd (.kstr "LinkedChildren") with
     | Option.none => .error "KeyError"
     | some lc =>
       if pyTruthy lc then
         match lc with
         | .plist kids =>
           (match kidsLoop kids [] with
            | .error e => .error e
            | .ok ch =>
              delete_data_keys (pySet entity (.kstr "children") (.pdict ch))
                ["LinkedChildren"])
         | _ => .error "TypeError"
       else .ok entity)
  | some _ => .error "TypeError"

/-- `BoxSetStrategy.parse_data` (src lines 374-389). -/
def boxset_parse_data (item : ItemRow) (entity : PyDict) :
    Except String PyDict := do
  let e ← base_parse_data item entity
  let e ← parse_trailers e
  let imgs ← get_images item
  let e ← setFilesSub e "images" imgs
  let e ← boxset_children_stage e
  delete_data_keys e ["Width", "Height", "IsHD", "IsShortcut", "IsRoot"]

/-- `BoxSetStrategy.parse` (src lines 391-395). -/
def boxset_parse (item : ItemRow) : Except String PyDict := do
  let names ← get_names item
  parse_common_fields boxsetTextFields boxsetListFields boxset_parse_data item
    [(.kstr "names", names)]

/-- `ParseTvStrategy.parse` (src lines 434-440), parameterized by the
(virtually dispatched) text-field list so that `ParseTvEpisode` can reuse
it. -/
def tv_parse_with (tf : List String) (item : ItemRow) :
    Except String PyDict := do
  let e ← parse_common_fields tf tvListFields base_parse_data item []
  let e ← parse_trailers e
  let imgs ← get_images item
  let e ← setFilesSub e "images" imgs
  .ok (pySet e (.kstr "overview") (.pdict [(.kstr "en", item "overview")]))

/-- `ParseTvSeries.parse` = `ParseTvSeason.parse` = the TV base parse. -/
def tv_parse (item : ItemRow) : Except String PyDict :=
  tv_parse_with tvTextFields item

/-- `ParseTvEpisode.parse_subtitles` (src lines 456-466).
`entity['data']['SubtitleFiles']` raises `KeyError` when absent; a truthy
value is iterated (a string iterates its characters, a dict its keys) and
each element appended as `{'path': sub}`; finally the five video keys are
best-effort deleted. -/
def episode_subtitles (entity : PyDict) : Except String PyDict :=
  match pyGet entity (.kstr "data") with
  | Option.none => .error "KeyError"
  | some (.pdict dd) =>
    (match pyGet dd (.kstr "SubtitleFiles") with
     | Option.none => .error "KeyError"
     | some sf =>
       let dele := fun (e : PyDict) =>
         delete_data_keys e ["IsHD", "Width", "Height", "Size", "SubtitleFiles"]
       let go := fun (subs : List PyVal) (e : PyDict) =>
         subs.foldlM
           (fun e s => filesAppend e "subtitles" (.pdict [(.kstr "path", s)])) e
       if pyTruthy sf then
         match sf with
         | .plist subs => (go subs entity).bind dele
         | .pstr s =>
           (go (s.data.map (fun c => .pstr ⟨[c]⟩)) entity).bind dele
         | .pdict kd => (go (kd.map (fun p => keyVal p.1)) entity).bind dele
         | _ => .error "TypeError"
       else dele entity)
  | some _ => .error "TypeError"

/-- `ParseTvEpisode.parse` (src lines 468-480): the TV base parse, then the
video file record built from `entity['path']` and the payload's `IsHD`,
`Size` (via `.get`, defaulting to `None`), `Width` and `Height` — the
bracketed lookups raise `KeyError` when absent — then subtitle
extraction. -/
def episode_parse (item : ItemRow) : Except String PyDict := do
  let e ← tv_parse_with episodeTextFields item
  match pyGet e (.kstr "path") with
  | Option.none => .error "KeyError"
  | some pathv =>
    match pyGet e (.kstr "data") with
    | Option.none => .error "KeyError"
    | some (.pdict dd) =>
      (match pyGet dd (.kstr "IsHD") with
       | Option.none => .error "KeyError"
       | some ishd =>
         let sizev := (pyGet dd (.kstr "Size")).getD .pnone
         match pyGet dd (.kstr "Width") with
         | Option.none => .error "KeyError"
         | some wid =>
           match pyGet dd (.kstr "Height") with
           | Option.none => .error "KeyError"
           | some hgt => do
             let vid := PyVal.plist [.pdict [(.kstr "path", pathv),
               (.kstr "isHD", ishd), (.kstr "size", sizev),
               (.kstr "width", wid), (.kstr "height", hgt)]]
             let e ← setFilesSub e "videos" vid
             episode_subtitles e)
    | some _ => .error "TypeError"

/-- `ParseFactory.get_strategy` (src lines 207-225): entity-type tag to
parse function, default strategy for unmapped tags. -/
def get_strategy (tag : String) : ItemRow → Except String PyDict :=
  if tag = "person" then person_parse
  else if tag = "tv-episode" then episode_parse
  else if tag = "tv-season" then tv_parse
  else if tag = "tv-series" then tv_parse
  else if tag = "genre-music" ∨ tag = "genre" then genre_parse
  else if tag = "box-set" then boxset_parse
  else default_parse

/-! ## Table serializers and the document assembler (src lines 129-565) -/

/-- `json.dumps` key coercion: a `None` dict key is emitted as the JSON
object key `"null"`.  (Booleans and integers are likewise coerced by
Python, but no such key occurs in this program.) -/
def jsonKeyCoerce : PyKey → PyKey
  | .knone => .kstr "null"
  | .kstr s => .kstr s

mutual

/-- `json.loads(json.dumps(v))`: the wire-format round trip.  Scalars and
containers survive; `None` keys come back as the string `"null"`
(duplicates after coercion keep the last binding, as `json.loads` does);
byte strings are not JSON-serializable and raise `TypeError`. -/
def jsonRT : PyVal → Except String PyVal
  | .pnone => .ok .pnone
  | .pbool b => .ok (.pbool b)
  | .pint i => .ok (.pint i)
  | .pstr s => .ok (.pstr s)
  | .pbytes _ => .error "TypeError"
  | .plist xs => (jsonRTList xs).map .plist
  | .pdict es => (jsonRTDict es []).map .pdict

/-- Round trip of a list, element-wise. -/
def jsonRTList : List PyVal → Except String (List PyVal)
  | [] => .ok []
  | v :: rest =>
    (match jsonRT v with
     | .error e => .error e
     | .ok v' =>
       match jsonRTList rest with
       | .error e => .error e
       | .ok rest' => .ok (v' :: rest'))

/-- Round trip of the entries of a dict, rebuilding with coerced keys. -/
def jsonRTDict : List (PyKey × PyVal) → PyDict → Except String PyDict
  | [], acc => .ok acc
  | (k, v) :: rest, acc =>
    (match jsonRT v with
     | .error e => .error e
     | .ok v' => jsonRTDict rest (pySet acc (jsonKeyCoerce k) v'))

end

/-- A key of the decoded-identifier space: `None` becomes the dict key
`None`, a decoded identifier its string. -/
def optKey : Option String → PyKey
  | Option.none => .knone
  | some s => .kstr s

/-- `response[k].append(v)` on a `defaultdict(list)`. -/
def ddAppend (d : PyDict) (k : PyKey) (v : PyVal) : PyDict :=
  match pyGet d k with
  | some (.plist xs) => pySet d k (.plist (xs ++ [v]))
  | _ => pySet d k (.plist [v])

/-- A row of the `AncestorIds` query (both columns quoted). -/
structure AncestorRow where
  AncestorId : PyVal
  ItemId : PyVal

/-- `AncestorTable.serialize` (src lines 148-155): group decoded ancestor
ids by decoded item id, then re-encode/decode the mapping through JSON
(so a `None` key becomes `"null"` already inside this section). -/
def ancestor_serialize (rows : List AncestorRow) : Except String PyVal := do
  let d ← rows.foldlM
    (fun (d : PyDict) r => do
      let k ← toUUID r.ItemId
      let a ← toUUID r.AncestorId
      .ok (ddAppend d (optKey k) (optStrVal a))) ([] : PyDict)
  jsonRT (.pdict d)

/-- A row of the `ItemValues` query. -/
structure EavRow where
  Value : PyVal
  CleanValue : PyVal
  TypeCol : PyVal
  ItemId : PyVal

/-- `ItemValues.serialize` (src lines 170-181). -/
def eav_serialize (rows : List EavRow) : Except String PyVal := do
  let d ← rows.foldlM
    (fun (d : PyDict) r => do
      let k ← toUUID r.ItemId
      .ok (ddAppend d (optKey k)
        (.pdict [(.kstr "type", r.TypeCol), (.kstr "value", r.Value),
          (.kstr "formatted", r.CleanValue)]))) ([] : PyDict)
  .ok (.pdict d)

/-- A row of the `People` query. -/
structure PeopleRow where
  ListOrder : PyVal
  Name : PyVal
  PersonType : PyVal
  Role : PyVal
  ItemId : PyVal

/-- `PeopleTable.serialize` (src lines 531-543). -/
def people_serialize (rows : List PeopleRow) : Except String PyVal := do
  let d ← rows.foldlM
    (fun (d : PyDict) r => do
      let k ← toUUID r.ItemId
      .ok (ddAppend d (optKey k)
        (.pdict [(.kstr "name", r.Name), (.kstr "type", r.PersonType),
          (.kstr "role", r.Role), (.kstr "order", r.ListOrder)]))) ([] : PyDict)
  .ok (.pdict d)

/-- `JELLYFIN_TYPES` (src lines 14-36). -/
def JELLYFIN_TYPES : List (String × String) :=
  [("Emby.Server.Implementations.Playlists.PlaylistsFolder", "folder-playlist"),
   ("MediaBrowser.Controller.Channels.Channel", "channel"),
   ("MediaBrowser.Controller.Entities.AggregateFolder", "folder-aggregate"),
   ("MediaBrowser.Controller.Entities.Audio.Audio", "audio"),
   ("MediaBrowser.Controller.Entities.Audio.MusicAlbum", "music-album"),
   ("MediaBrowser.Controller.Entities.Audio.MusicArtist", "music-artist"),
   ("MediaBrowser.Controller.Entities.Audio.MusicGenre", "genre-music"),
   ("MediaBrowser.Controller.Entities.CollectionFolder", "folder-collection"),
   ("MediaBrowser.Controller.Entities.Folder", "folder"),
   ("MediaBrowser.Controller.Entities.Genre", "genre"),
   ("MediaBrowser.Controller.Entities.Movies.BoxSet", "box-set"),
   ("MediaBrowser.Controller.Entities.Movies.Movie", "movie"),
   ("MediaBrowser.Controller.Entities.Person", "person"),
   ("MediaBrowser.Controller.Entities.Studio", "studio"),
   ("MediaBrowser.Controller.Entities.TV.Episode", "tv-episode"),
   ("MediaBrowser.Controller.Entities.TV.Season", "tv-season"),
   ("MediaBrowser.Controller.Entities.TV.Series", "tv-series"),
   ("MediaBrowser.Controller.Entities.UserRootFolder", "folder-root"),
   ("MediaBrowser.Controller.Entities.UserView", "view-user"),
   ("MediaBrowser.Controller.Entities.Video", "video"),
   ("MediaBrowser.Controller.Playlists.Playlist", "playlist")]

/-- `Items.serialize` (src lines 505-515): per row, resolve the semantic
tag, parse with the dispatched strategy (the assignment's right-hand side
runs before the `toUUID` of the subscript), and file the entity under
`response[tag][decoded guid]`. -/
def items_serialize (rows : List ItemRow) : Except String PyVal := do
  let d ← rows.foldlM
    (fun (d : PyDict) item => do
      let t ← match item "type" with
        | .pstr t => Except.ok t
        | _ => Except.error "KeyError"
      let tag ← match JELLYFIN_TYPES.find? (fun p => p.1 == t) with
        | some p => Except.ok p.2
        | Option.none => Except.error "KeyError"
      let ent ← get_strategy tag item
      let guid ← toUUID (item "guid")
      let inner : PyDict := match pyGet d (.kstr tag) with
        | some (.pdict m) => m
        | _ => []
      .ok (pySet d (.kstr tag) (.pdict (pySet inner (optKey guid) (.pdict ent)))))
    ([] : PyDict)
  .ok (.pdict d)

/-- The four-section document as assembled in memory (src lines 546-558),
before the final wire round trip: sections in the `serializers` dict order
`eav`, `items`, `parents`, `people`. -/
def assembleRaw (itemRows : List ItemRow) (eavRows : List EavRow)
    (ancRows : List AncestorRow) (pplRows : List PeopleRow) :
    Except String PyVal := do
  let eav ← eav_serialize eavRows
  let items ← items_serialize itemRows
  let parents ← ancestor_serialize ancRows
  let people ← people_serialize pplRows
  .ok (.pdict [(.kstr "eav", eav), (.kstr "items", items),
    (.kstr "parents", parents), (.kstr "people", people)])

/-- The emitted document: `DATA = json.loads(json.dumps(DATA))`
(src line 561), the normalization pass of the Document Assembler. -/
def assemble (itemRows : List ItemRow) (eavRows : List EavRow)
    (ancRows : List AncestorRow) (pplRows : List PeopleRow) :
    Except String PyVal :=
  (assembleRaw itemRows eavRows ancRows pplRows).bind jsonRT

/-! ## Observers and statement vocabulary -/

/-- Look up `entity['files'][k]` without raising. -/
def entityFilesGet (e : PyDict) (k : String) : Option PyVal :=
  match pyGet e (.kstr "files") with
  | some (.pdict f) => pyGet f (.kstr k)
  | _ => Option.none

/-- Look up `entity['data'][k]` without raising (absent when the residual
payload is missing or not a dict). -/
def entityDataGet (e : PyDict) (k : String) : Option PyVal :=
  match pyGet e (.kstr "data") with
  | some (.pdict dd) => pyGet dd (.kstr k)
  | _ => Option.none

/-- Look up `doc[sec][k]` in an assembled document. -/
def sectionGet (doc : PyVal) (sec k : String) : Option PyVal :=
  match doc with
  | .pdict d =>
    (match pyGet d (.kstr sec) with
     | some (.pdict m) => pyGet m (.kstr k)
     | _ => Option.none)
  | _ => Option.none

/-- Modelled from the spec: the map decoder's documented non-empty
behaviour, "splits text on a pipe delimiter, then splits each segment on
`=` into key/value".  Stated independently of `toDict` for comparison. -/
def specMapDecode (s : String) : PyDict :=
  (pySplit s '|').foldl
    (fun d seg =>
      pySet d (.kstr ((pySplit seg '=').headD ""))
        (.pstr ((pySplit seg '=').getD 1 ""))) []

/-- The identifier cell decodes without raising. -/
def okUUID (v : PyVal) : Prop := ∃ r, toUUID v = .ok r

/-- The delimited-list cell decodes without raising. -/
def okList (v : PyVal) : Prop := ∃ r, toList v = .ok r

/-- The delimited-map cell decodes without raising. -/
def okDict (v : PyVal) : Prop := ∃ r, toDict v = .ok r

/-- The payload column is falsy or decodes as JSON (after UTF-8 decoding
when it is a byte string). -/
def dataOK (item : ItemRow) : Prop :=
  match item "data" with
  | .pnone => True
  | .pstr s => s = "" ∨ ∃ v, jsonLoads s = .ok v
  | .pbytes (some s) => ∃ v, jsonLoads s = .ok v
  | .pbytes Option.none => False
  | .pbool b => b = false
  | .pint i => i = 0
  | .plist xs => xs = []
  | .pdict d => d = []

/-- The decoded identifier and path of one `LinkedChildren` entry, when the
entry has the shape the box-set strategy consumes. -/
def kidDecode (v : PyVal) : Option (String × PyVal) :=
  match v with
  | .pdict m =>
    (match pyGet m (.kstr "ItemId") with
     | some (.pstr s) =>
       (match pyGet m (.kstr "Path") with
        | some p =>
          (match uuidFormat s with
           | .ok u => some (u, p)
           | .error _ => Option.none)
        | Option.none => Option.none)
     | _ => Option.none)
  | _ => Option.none

mutual

/-- Every dict key is a string bound once and no byte string occurs: the
values on which the wire round trip is lossless. -/
def jsonSafe : PyVal → Bool
  | .pnone => true
  | .pbool _ => true
  | .pint _ => true
  | .pstr _ => true
  | .pbytes _ => false
  | .plist xs => jsonSafeList xs
  | .pdict es =>
    (es.map Prod.fst).Nodup && (es.map Prod.fst).all (fun k => k ≠ .knone) &&
      jsonSafeDict es

/-- `jsonSafe` over list elements. -/
def jsonSafeList : List PyVal → Bool
  | [] => true
  | v :: rest => jsonSafe v && jsonSafeList rest

/-- `jsonSafe` over dict values. -/
def jsonSafeDict : List (PyKey × PyVal) → Bool
  | [] => true
  | (_, v) :: rest => jsonSafe v && jsonSafeDict rest

end

/-! ## Concrete rows used by counterexamples and witnesses -/

/-- A row with the given `name`, `data`, `path` and `images` cells and SQL
null everywhere else (every declared column present). -/
def mkRow (nameV dataV pathV imagesV : PyVal) : ItemRow := fun k =>
  if k = "name" then nameV
  else if k = "data" then dataV
  else if k = "path" then pathV
  else if k = "images" then imagesV
  else .pnone

/-- A well-formed row whose every column is SQL null. -/
def rowAllNull : ItemRow := fun _ => .pnone

/-- A genre row whose image descriptor has a non-numeric height token. -/
def rowBadHeight : ItemRow :=
  mkRow (.pstr "G") .pnone .pnone (.pstr "p*Primary*xx*200")

/-- A row whose quoted `guid` is not valid hexadecimal. -/
def rowBadGuid : ItemRow := fun k =>
  if k = "guid" then .pstr "X'zz'" else .pnone

/-- A genre row with an image descriptor whose path embeds `*`. -/
def rowStarPath : ItemRow :=
  mkRow (.pstr "G") .pnone .pnone (.pstr "/p/a*b.jpg*Primary*300*200")

/-- The TV-episode row of testable property 5: full video payload and one
subtitle. -/
def rowEpisodeFull : ItemRow :=
  mkRow (.pstr "Ep") (.pstr "\x7b\"IsHD\": true, \"Width\": 1920, \"Height\": 1080, \"Size\": 1234, \"SubtitleFiles\": [\"a.srt\"]\x7d")
    (.pstr "/v/ep1.mkv") .pnone

/-- An episode row whose payload lacks `Size` only. -/
def rowEpisodeNoSize : ItemRow :=
  mkRow (.pstr "Ep") (.pstr "\x7b\"IsHD\": false, \"Width\": 640, \"Height\": 480, \"SubtitleFiles\": []\x7d")
    (.pstr "/v/e.mkv") .pnone

/-- An episode row whose payload lacks `IsHD`. -/
def rowEpisodeNoIsHD : ItemRow :=
  mkRow (.pstr "Ep") (.pstr "\x7b\"Width\": 640, \"Height\": 480, \"Size\": 1, \"SubtitleFiles\": []\x7d")
    (.pstr "/v/e.mkv") .pnone

/-- An episode row whose payload lacks `Width`. -/
def rowEpisodeNoWidth : ItemRow :=
  mkRow (.pstr "Ep") (.pstr "\x7b\"IsHD\": false, \"Height\": 480, \"Size\": 1, \"SubtitleFiles\": []\x7d")
    (.pstr "/v/e.mkv") .pnone

/-- An episode row whose payload lacks `Height`. -/
def rowEpisodeNoHeight : ItemRow :=
  mkRow (.pstr "Ep") (.pstr "\x7b\"IsHD\": false, \"Width\": 640, \"Size\": 1, \"SubtitleFiles\": []\x7d")
    (.pstr "/v/e.mkv") .pnone

/-- An episode row whose payload lacks `SubtitleFiles`. -/
def rowEpisodeNoSubs : ItemRow :=
  mkRow (.pstr "Ep") (.pstr "\x7b\"IsHD\": false, \"Width\": 640, \"Height\": 480, \"Size\": 1\x7d")
    (.pstr "/v/e.mkv") .pnone

/-- A box-set row whose payload lacks `LinkedChildren`. -/
def rowBoxNoLC : ItemRow :=
  mkRow (.pstr "Box") (.pstr "\x7b\"IsRoot\": false\x7d") .pnone .pnone

/-- A box-set row whose payload has an *empty* `LinkedChildren` list and a
`Width` field. -/
def rowBoxEmptyLC : ItemRow :=
  mkRow (.pstr "Box") (.pstr "\x7b\"LinkedChildren\": [], \"Width\": 5\x7d") .pnone .pnone

/-- A box-set row with two linked children and the prunable flags. -/
def rowBoxKids : ItemRow :=
  mkRow (.pstr "Box")
    (.pstr "\x7b\"LinkedChildren\": [\x7b\"ItemId\": \"00112233445566778899aabbccddeeff\", \"Path\": \"/c1\"\x7d, \x7b\"ItemId\": \"ffeeddccbbaa99887766554433221100\", \"Path\": \"/c2\"\x7d], \"IsRoot\": false, \"Width\": 1, \"Height\": 2, \"IsHD\": true, \"IsShortcut\": false\x7d")
    .pnone .pnone

/-- A well-formed genre row with every decodable field populated. -/
def rowGenreGood : ItemRow := fun k =>
  if k = "name" then .pstr " Drama "
  else if k = "data" then .pstr "\x7b\"RemoteTrailers\": []\x7d"
  else if k = "images" then .pstr "/i.jpg*Primary*10*20"
  else if k = "guid" then .pstr "X'00112233445566778899AABBCCDDEEFF'"
  else if k = "externalIds" then .pstr "imdb=tt1"
  else .pnone

/-- A `People` row whose `ItemId` is the SQL `NULL` literal, so its
identifier decodes to an absent key. -/
def pplNullRow : PeopleRow :=
  ⟨.pint 1, .pstr "Alice", .pstr "Actor", .pstr "Lead", .pstr "NULL"⟩

/-! ## Basic lemmas about the embedding -/

theorem exceptBind_ok {α β : Type} {x : Except String α} {f : α → Except String β}
    {c : β} (h : x.bind f = .ok c) : ∃ b, x = .ok b ∧ f b = .ok c := by
  cases x with
  | error e => simp [Except.bind] at h
  | ok b => exact ⟨b, rfl, h⟩

theorem exceptMap_ok {α β : Type} {x : Except String α} {f : α → β} {c : β}
    (h : x.map f = .ok c) : ∃ b, x = .ok b ∧ f b = c := by
  cases x with
  | error e => simp [Except.map] at h
  | ok b => exact ⟨b, rfl, by simpa [Except.map] using h⟩

theorem pyGet_pySet_same (d : PyDict) (k : PyKey) (v : PyVal) :
    pyGet (pySet d k v) k = some v := by
  induction d with
  | nil => simp [pySet, pyGet]
  | cons p rest ih =>
    by_cases h : p.1 = k
    · simp [pySet, pyGet, h]
    · simp [pySet, pyGet, h, ih]

theorem pyGet_pySet_ne (d : PyDict) (k k' : PyKey) (v : PyVal)
    (h : k' ≠ k) : pyGet (pySet d k v) k' = pyGet d k' := by
  have h2 : ¬(k = k') := fun hh => h hh.symm
  induction d with
  | nil => simp [pySet, pyGet, h2]
  | cons p rest ih =>
    by_cases hk : p.1 = k
    · simp [pySet, pyGet, hk, h2]
    · simp [pySet, pyGet, hk, ih]

theorem pySet_pySet (d : PyDict) (k : PyKey) (v w : PyVal) :
    pySet (pySet d k v) k w = pySet d k w := by
  induction d with
  | nil => simp [pySet]
  | cons p rest ih =>
    by_cases h : p.1 = k
    · simp [pySet, h]
    · simp [pySet, h, ih]

theorem pySet_of_not_mem (d : PyDict) (k : PyKey) (v : PyVal)
    (h : pyGet d k = Option.none) : pySet d k v = d ++ [(k, v)] := by
  induction d with
  | nil => simp [pySet]
  | cons p rest ih =>
    by_cases hk : p.1 = k
    · simp [pyGet, hk] at h
    · simp [pyGet, hk] at h
      simp [pySet, hk, ih h]

theorem pyGet_pyDel_same (d : PyDict) (k : PyKey) :
    pyGet (pyDel d k) k = Option.none := by
  induction d with
  | nil => simp [pyDel, pyGet]
  | cons p rest ih =>
    by_cases h : p.1 = k
    · simp [pyDel, h, ih]
    · simp [pyDel, pyGet, h, ih]

theorem pyGet_pyDel_ne (d : PyDict) (k k' : PyKey) (h : k' ≠ k) :
    pyGet (pyDel d k) k' = pyGet d k' := by
  have h2 : ¬(k = k') := fun hh => h hh.symm
  induction d with
  | nil => simp [pyDel, pyGet]
  | cons p rest ih =>
    by_cases hk : p.1 = k
    · simp [pyDel, pyGet, hk, h2, ih]
    · simp [pyDel, pyGet, hk, ih]

theorem pyGet_foldl_pyDel (keys : List String) (d : PyDict) (k : String) :
    pyGet (keys.foldl (fun d k => pyDel d (.kstr k)) d) (.kstr k) =
      if k ∈ keys then Option.none else pyGet d (.kstr k) := by
  induction keys generalizing d with
  | nil => simp
  | cons a rest ih =>
    by_cases hmem : k ∈ rest
    · simp [List.foldl, ih, hmem, List.mem_cons]
    · by_cases ha : k = a
      · subst ha
        simp [List.foldl, ih, hmem, pyGet_pyDel_same]
      · have hne : (PyKey.kstr k) ≠ (.kstr a) := by
          intro hh; exact ha (PyKey.kstr.inj hh)
        simp [List.foldl, ih, hmem, ha, pyGet_pyDel_ne _ _ _ hne]

/-! ## Lemmas about the identifier codec -/

theorem replaceDelF_of_head_notin (p : Char) (ps : List Char) :
    ∀ (fuel : Nat) (l : List Char), (∀ c ∈ l, c ≠ p) →
    replaceDelF p ps fuel l = l := by
  intro fuel
  induction fuel with
  | zero => intro l _; rfl
  | succ n ih =>
    intro l h
    cases l with
    | nil => rfl
    | cons c rest =>
      have hc : c ≠ p := h c (List.mem_cons_self c rest)
      have hpre : ((p :: ps).isPrefixOf (c :: rest)) = false := by
        simp [List.isPrefixOf]
        intro hh
        exact absurd hh.symm hc
      rw [replaceDelF]
      simp only [hpre, Bool.false_eq_true, if_false]
      rw [ih rest (fun x hx => h x (List.mem_cons_of_mem c hx))]

theorem replaceDel_of_head_notin (p : Char) (ps l : List Char)
    (h : ∀ c ∈ l, c ≠ p) : replaceDel p ps l = l :=
  replaceDelF_of_head_notin p ps l.length l h

theorem dropWhile_eq_self_of {α : Type} (p : α → Bool) (l : List α)
    (h : ∀ c ∈ l, p c = false) : l.dropWhile p = l := by
  cases l with
  | nil => rfl
  | cons c rest => simp [List.dropWhile, h c (List.mem_cons_self c rest)]

theorem uuidClean_of_hex (l : List Char) (h : ∀ c ∈ l, isHexChar c = true) :
    uuidClean l = l := by
  have hne : ∀ x : Char, isHexChar x = false → ∀ c ∈ l, c ≠ x := by
    intro x hx c hc hh
    have h2 := h c hc
    rw [hh, hx] at h2
    cases h2
  have h1 : replaceDel 'u' ['r', 'n', ':'] l = l :=
    replaceDel_of_head_notin _ _ _ (hne 'u' (by decide))
  have h2 : replaceDel 'u' ['u', 'i', 'd', ':'] l = l :=
    replaceDel_of_head_notin _ _ _ (hne 'u' (by decide))
  have h3 : stripBraces l = l := by
    unfold stripBraces
    rw [dropWhile_eq_self_of _ l ?hb, dropWhile_eq_self_of _ l.reverse ?hb2,
      List.reverse_reverse]
    case hb =>
      intro c hc
      simp only [decide_eq_false_iff_not]
      intro hor
      rcases hor with h4 | h4
      · exact hne '{' (by decide) c hc h4
      · exact hne '}' (by decide) c hc h4
    case hb2 =>
      intro c hc
      simp only [decide_eq_false_iff_not]
      intro hor
      rcases hor with h4 | h4
      · exact hne '{' (by decide) c (List.mem_reverse.mp hc) h4
      · exact hne '}' (by decide) c (List.mem_reverse.mp hc) h4
  have h4 : l.filter (fun c => c ≠ '-') = l := by
    rw [List.filter_eq_self]
    intro c hc
    have hd := hne '-' (by decide) c hc
    simp [hd]
  unfold uuidClean
  rw [h1, h2, h3, h4]

theorem isLowerHex_toHexChar (m : Nat) (h : m < 16) :
    isLowerHex (toHexChar m) = true := by
  have hall : ∀ m : Nat, m < 16 → isLowerHex (toHexChar m) = true := by decide
  exact hall m h

theorem renderHex32_length (v : Nat) : (renderHex32 v).length = 32 := by
  simp [renderHex32]

theorem renderHex32_lowerHex (v : Nat) :
    ∀ c ∈ renderHex32 v, isLowerHex c = true := by
  intro c hc
  simp only [renderHex32, List.mem_map, List.mem_range] at hc
  obtain ⟨i, _, rfl⟩ := hc
  exact isLowerHex_toHexChar _ (Nat.mod_lt _ (by norm_num))

theorem checkChunks_step (n : Nat) (m : Nat) (ns : List Nat)
    (a rest : List Char) (hlen : a.length = n)
    (hhex : ∀ c ∈ a, isLowerHex c = true) :
    checkChunks (n :: m :: ns) (a ++ '-' :: rest) = checkChunks (m :: ns) rest := by
  rw [checkChunks]
  rw [← hlen, List.take_left, List.drop_left]
  simp [List.all_eq_true.mpr hhex]

theorem checkChunks_full (a b c d e : List Char)
    (ha : a.length = 8) (hb : b.length = 4) (hc : c.length = 4)
    (hd : d.length = 4) (he : e.length = 12)
    (pa : ∀ x ∈ a, isLowerHex x = true) (pb : ∀ x ∈ b, isLowerHex x = true)
    (pc : ∀ x ∈ c, isLowerHex x = true) (pd : ∀ x ∈ d, isLowerHex x = true)
    (pe : ∀ x ∈ e, isLowerHex x = true) :
    checkChunks [8, 4, 4, 4, 12]
      (a ++ '-' :: (b ++ '-' :: (c ++ '-' :: (d ++ '-' :: e)))) = true := by
  rw [checkChunks_step 8 4 [4, 4, 12] a _ ha pa]
  rw [checkChunks_step 4 4 [4, 12] b _ hb pb]
  rw [checkChunks_step 4 4 [12] c _ hc pc]
  rw [checkChunks_step 4 12 [] d _ hd pd]
  rw [checkChunks]
  simp [he, List.all_eq_true.mpr pe]

theorem checkChunks_hyphenate (l : List Char) (hlen : l.length = 32)
    (hhex : ∀ c ∈ l, isLowerHex c = true) :
    checkChunks [8, 4, 4, 4, 12] (uuidHyphenate l) = true := by
  unfold uuidHyphenate
  refine checkChunks_full _ _ _ _ _ ?_ ?_ ?_ ?_ ?_ ?_ ?_ ?_ ?_ ?_
  · simp [hlen]
  · simp [hlen]
  · simp [hlen]
  · simp [hlen]
  · simp [hlen]
  · exact fun x hx => hhex x (List.take_subset _ _ hx)
  · exact fun x hx => hhex x (List.drop_subset _ _ (List.take_subset _ _ hx))
  · exact fun x hx =>
      hhex x (List.drop_subset _ _ (List.drop_subset _ _ (List.take_subset _ _ hx)))
  · exact fun x hx =>
      hhex x (List.drop_subset _ _ (List.drop_subset _ _
        (List.drop_subset _ _ (List.take_subset _ _ hx))))
  · exact fun x hx =>
      hhex x (List.drop_subset _ _ (List.drop_subset _ _
        (List.drop_subset _ _ (List.drop_subset _ _ hx))))

theorem uuidFormat_canonical (s u : String) (h : uuidFormat s = .ok u) :
    isCanonicalUUID u = true := by
  unfold uuidFormat at h
  by_cases hc : (uuidClean s.data).length = 32 ∧
      ((uuidClean s.data).all isHexChar) = true
  · rw [if_pos hc] at h
    cases h
    unfold isCanonicalUUID
    exact checkChunks_hyphenate _ (renderHex32_length _) (renderHex32_lowerHex _)
  · rw [if_neg hc] at h
    cases h

theorem toUUID_canonical (s : PyVal) (u : String)
    (h : toUUID s = .ok (some u)) : isCanonicalUUID u = true := by
  cases s with
  | pstr s =>
    simp only [toUUID] at h
    split at h
    · cases h
    · obtain ⟨r, hr, hmap⟩ := exceptMap_ok h
      cases hmap
      exact uuidFormat_canonical _ _ hr
  | pnone => cases h
  | pint i =>
    simp only [toUUID] at h
    split at h <;> cases h
  | pbool b =>
    simp only [toUUID] at h
    split at h <;> cases h
  | pbytes b => cases h
  | plist xs =>
    simp only [toUUID] at h
    split at h <;> cases h
  | pdict d =>
    simp only [toUUID] at h
    split at h <;> cases h

theorem pySlice2m1_quoted (h : String) :
    pySlice2m1 ("X'" ++ h ++ "'") = h := by
  unfold pySlice2m1
  have hd : ("X'" ++ h ++ "'").data = 'X' :: '\'' :: (h.data ++ ['\'']) := by
    simp [String.data_append]
  rw [hd]
  simp [List.dropLast_concat]

theorem strLength_quoted (h : String) :
    ("X'" ++ h ++ "'").length = h.length + 3 := by
  have h1 : "X'".length = 2 := rfl
  have h2 : "'".length = 1 := rfl
  simp [String.length_append, h1, h2]
  omega

theorem toUUID_quoted_hex (h : String) (hlen : h.data.length = 32)
    (hhex : h.data.all isHexChar = true) :
    toUUID (.pstr ("X'" ++ h ++ "'")) =
      .ok (some ⟨uuidHyphenate (renderHex32 (hexListVal h.data))⟩) := by
  have hlen' : h.length = 32 := hlen
  have hq : ("X'" ++ h ++ "'").length = 35 := by
    rw [strLength_quoted, hlen']
  simp only [toUUID]
  rw [if_neg ?hnot]
  case hnot =>
    intro hor
    rcases hor with h1 | h1 | h1
    · rw [h1] at hq
      cases hq
    · rw [h1] at hq
      cases hq
    · rw [hq] at h1
      omega
  rw [pySlice2m1_quoted]
  unfold uuidFormat
  rw [uuidClean_of_hex _ (List.all_eq_true.mp hhex)]
  rw [if_pos ⟨hlen, hhex⟩]
  rfl

/-! ## Lemmas about the generic field pass -/

theorem foldlM_ok_of_steps {α β : Type} (f : β → α → Except String β) :
    ∀ (l : List α), (∀ a ∈ l, ∀ b, ∃ b', f b a = .ok b') →
    ∀ b, ∃ b', l.foldlM f b = .ok b' := by
  intro l
  induction l with
  | nil => exact fun _ b => ⟨b, rfl⟩
  | cons a rest ih =>
    intro h b
    obtain ⟨b1, hb1⟩ := h a (List.mem_cons_self a rest) b
    obtain ⟨b', hb'⟩ := ih (fun x hx => h x (List.mem_cons_of_mem a hx)) b1
    refine ⟨b', ?_⟩
    rw [List.foldlM_cons, hb1]
    exact hb'

theorem toDictStep_fold (segs : List String)
    (h : ∀ seg ∈ segs, (pySplit seg '=').length = 2) :
    ∀ d : PyDict, segs.foldlM toDictStep d = .ok (segs.foldl
      (fun d seg => pySet d (.kstr ((pySplit seg '=').headD ""))
        (.pstr ((pySplit seg '=').getD 1 ""))) d) := by
  induction segs with
  | nil => exact fun d => rfl
  | cons seg rest ih =>
    intro d
    have hs := h seg (List.mem_cons_self seg rest)
    match hsp : pySplit seg '=' with
    | [k, v] =>
      have hstep : toDictStep d seg = .ok (pySet d (.kstr k) (.pstr v)) := by
        unfold toDictStep
        rw [hsp]
      have hrec := ih (fun x hx => h x (List.mem_cons_of_mem seg hx))
        (pySet d (.kstr k) (.pstr v))
      rw [List.foldlM_cons, hstep]
      show List.foldlM toDictStep (pySet d (.kstr k) (.pstr v)) rest = _
      rw [hrec]
      simp [hsp]
    | [] => rw [hsp] at hs; cases hs
    | [k] => rw [hsp] at hs; cases hs
    | k :: v :: w :: tl => rw [hsp] at hs; simp at hs

theorem classifyStep_ok (tf lf : List String) (item : ItemRow) (k : String)
    (hb : k ∈ blobFields → okUUID (item k))
    (hl : k ∈ lf → okList (item k))
    (hd : k ∈ dictFields → okDict (item k)) :
    ∀ e, ∃ e', classifyStep tf lf item e k = .ok e' := by
  intro e
  unfold classifyStep
  by_cases h1 : k ∈ tf
  · exact ⟨_, by rw [if_pos h1]⟩
  rw [if_neg h1]
  by_cases h2 : k ∈ blobFields
  · obtain ⟨r, hr⟩ := hb h2
    exact ⟨_, by rw [if_pos h2, hr]; rfl⟩
  rw [if_neg h2]
  by_cases h3 : k ∈ dateFields
  · exact ⟨_, by rw [if_pos h3]⟩
  rw [if_neg h3]
  by_cases h4 : k ∈ lf
  · obtain ⟨r, hr⟩ := hl h4
    exact ⟨_, by rw [if_pos h4, hr]; rfl⟩
  rw [if_neg h4]
  by_cases h5 : k ∈ dictFields
  · obtain ⟨r, hr⟩ := hd h5
    exact ⟨_, by rw [if_pos h5, hr]; rfl⟩
  rw [if_neg h5]
  exact ⟨e, rfl⟩

theorem classifyStep_shape (tf lf : List String) (item : ItemRow)
    (e e' : PyDict) (k : String)
    (hstep : classifyStep tf lf item e k = .ok e') :
    e' = e ∨ ∃ v, e' = pySet e (.kstr k) v := by
  unfold classifyStep at hstep
  split at hstep
  · exact Or.inr ⟨_, (Except.ok.inj hstep).symm⟩
  split at hstep
  · obtain ⟨r, hr, hmap⟩ := exceptMap_ok hstep
    exact Or.inr ⟨_, hmap.symm⟩
  split at hstep
  · exact Or.inr ⟨_, (Except.ok.inj hstep).symm⟩
  split at hstep
  · obtain ⟨r, hr, hmap⟩ := exceptMap_ok hstep
    exact Or.inr ⟨_, hmap.symm⟩
  split at hstep
  · obtain ⟨r, hr, hmap⟩ := exceptMap_ok hstep
    exact Or.inr ⟨_, hmap.symm⟩
  exact Or.inl (Except.ok.inj hstep).symm

theorem classifyStep_text (tf lf : List String) (item : ItemRow)
    (e : PyDict) (k : String) (h : k ∈ tf) :
    classifyStep tf lf item e k = .ok (pySet e (.kstr k) (item k)) := by
  unfold classifyStep
  rw [if_pos h]

theorem fold_classify_preserve (tf lf : List String) (item : ItemRow) :
    ∀ (l : List String) (e e' : PyDict) (key : PyKey),
    l.foldlM (classifyStep tf lf item) e = .ok e' →
    (∀ k ∈ l, key ≠ .kstr k) → pyGet e' key = pyGet e key := by
  intro l
  induction l with
  | nil => intro e e' key h _; cases h; rfl
  | cons a rest ih =>
    intro e e' key h hkey
    rw [List.foldlM_cons] at h
    obtain ⟨e1, he1, hrest⟩ := exceptBind_ok h
    have h2 := ih e1 e' key hrest (fun k hk => hkey k (List.mem_cons_of_mem a hk))
    rw [h2]
    rcases classifyStep_shape _ _ _ _ _ _ he1 with hsh | ⟨v, hsh⟩
    · rw [hsh]
    · rw [hsh, pyGet_pySet_ne _ _ _ _ (hkey a (List.mem_cons_self a rest))]

theorem fold_classify_get_text (tf lf : List String) (item : ItemRow) :
    ∀ (l : List String) (e e' : PyDict) (k : String), l.Nodup →
    l.foldlM (classifyStep tf lf item) e = .ok e' → k ∈ l → k ∈ tf →
    pyGet e' (.kstr k) = some (item k) := by
  intro l
  induction l with
  | nil => intro _ _ _ _ _ hmem; cases hmem
  | cons a rest ih =>
    intro e e' k hnd h hmem htf
    rw [List.foldlM_cons] at h
    obtain ⟨e1, he1, hrest⟩ := exceptBind_ok h
    by_cases hak : k = a
    · subst hak
      have hset := classifyStep_text tf lf item e k htf
      rw [hset] at he1
      cases he1
      have hnot : k ∉ rest := (List.nodup_cons.mp hnd).1
      rw [fold_classify_preserve tf lf item rest _ _ _ hrest
        (fun x hx hh => hnot (by rw [PyKey.kstr.inj hh]; exact hx))]
      exact pyGet_pySet_same _ _ _
    · rcases List.mem_cons.mp hmem with h1 | h1
      · exact absurd h1 hak
      · exact ih e1 e' k (List.nodup_cons.mp hnd).2 hrest h1 htf

theorem fieldsValues_nodup : fieldsValues.Nodup := by decide

/-! ## Lemmas about payload handling -/

theorem base_parse_data_pstr (item : ItemRow) (e : PyDict) (s : String)
    (hs : item "data" = .pstr s) (hne : s ≠ "") (v : PyVal)
    (hv : jsonLoads s = .ok v) :
    base_parse_data item e = .ok (pySet e (.kstr "data") v) := by
  unfold base_parse_data
  rw [hs]
  simp [hne, hv, Except.map]

theorem base_parse_data_shape (item : ItemRow) (e e' : PyDict)
    (h : base_parse_data item e = .ok e') :
    e' = e ∨ ∃ v, e' = pySet e (.kstr "data") v := by
  unfold base_parse_data at h
  cases hd : item "data" <;> rw [hd] at h
  case pnone => simp [pyTruthy] at h; exact Or.inl h.symm
  case pbool b =>
    cases b
    · simp [pyTruthy] at h; exact Or.inl h.symm
    · simp [pyTruthy] at h
  case pint i =>
    by_cases hi : i = 0
    · subst hi; simp [pyTruthy] at h; exact Or.inl h.symm
    · simp [pyTruthy, hi] at h
  case pstr s =>
    by_cases hse : s = ""
    · subst hse; simp at h; exact Or.inl h.symm
    · simp [hse] at h
      obtain ⟨v, hv, hmap⟩ := exceptMap_ok h
      exact Or.inr ⟨v, hmap.symm⟩
  case pbytes u =>
    cases u with
    | none => cases h
    | some s =>
      obtain ⟨v, hv, hmap⟩ := exceptMap_ok h
      exact Or.inr ⟨v, hmap.symm⟩
  case plist xs =>
    by_cases hx : xs.isEmpty <;> simp [pyTruthy, hx] at h
    exact Or.inl h.symm
  case pdict d =>
    by_cases hx : d.isEmpty <;> simp [pyTruthy, hx] at h
    exact Or.inl h.symm

theorem base_parse_data_preserve (item : ItemRow) (e e' : PyDict)
    (h : base_parse_data item e = .ok e') (key : PyKey)
    (hk : key ≠ .kstr "data") : pyGet e' key = pyGet e key := by
  rcases base_parse_data_shape item e e' h with h1 | ⟨v, h1⟩
  · rw [h1]
  · rw [h1, pyGet_pySet_ne _ _ _ _ hk]

theorem delete_data_keys_absent (e e' : PyDict) (keys : List String)
    (h : delete_data_keys e keys = .ok e') (k : String) (hk : k ∈ keys) :
    entityDataGet e' k = Option.none := by
  unfold delete_data_keys at h
  split at h
  · rename_i hemp
    rw [List.isEmpty_iff.mp hemp] at hk
    cases hk
  · split at h
    · rename_i dd hdd
      cases h
      unfold entityDataGet
      rw [pyGet_pySet_same]
      simp [pyGet_foldl_pyDel, hk]
    · rename_i hdd
      cases h
      unfold entityDataGet
      rw [hdd]
    · cases h

theorem delete_data_keys_other (e e' : PyDict) (keys : List String)
    (h : delete_data_keys e keys = .ok e') (k : String) (hk : k ∉ keys) :
    entityDataGet e' k = entityDataGet e k := by
  unfold delete_data_keys at h
  split at h
  · cases h; rfl
  · split at h
    · rename_i dd hdd
      cases h
      unfold entityDataGet
      rw [pyGet_pySet_same, hdd]
      simp [pyGet_foldl_pyDel, hk]
    · rename_i hdd
      cases h
      rfl
    · cases h

theorem delete_data_keys_preserve (e e' : PyDict) (keys : List String)
    (h : delete_data_keys e keys = .ok e') (key : PyKey)
    (hk : key ≠ .kstr "data") : pyGet e' key = pyGet e key := by
  unfold delete_data_keys at h
  split at h
  · cases h; rfl
  · split at h
    · cases h
      rw [pyGet_pySet_ne _ _ _ _ hk]
    · cases h; rfl
    · cases h

theorem setFilesSub_spec (e e' : PyDict) (k : String) (v : PyVal)
    (h : setFilesSub e k v = .ok e') :
    ∃ f, pyGet e (.kstr "files") = some (.pdict f) ∧
      e' = pySet e (.kstr "files") (.pdict (pySet f (.kstr k) v)) := by
  unfold setFilesSub at h
  split at h
  · rename_i f hf
    cases h
    exact ⟨f, hf, rfl⟩
  · cases h
  · cases h

theorem filesAppend_fresh (e : PyDict) (k : String) (v : PyVal) (f : PyDict)
    (hf : pyGet e (.kstr "files") = some (.pdict f))
    (hnone : pyGet f (.kstr k) = Option.none) :
    filesAppend e k v =
      .ok (pySet e (.kstr "files") (.pdict (pySet f (.kstr k) (.plist [v])))) := by
  unfold filesAppend
  simp [hf, hnone]

/-- The conclusion shared by the `parse_trailers` shape lemmas, for a given
input entity and result entity. -/
def PTShape (e e' : PyDict) : Prop :=
  ∃ f, pyGet e' (.kstr "files") = some (.pdict f) ∧
    (f = [] ∨ ∃ trs, f = [(.kstr "trailers", .plist trs)]) ∧
    (∀ key, key ≠ .kstr "files" → key ≠ .kstr "data" →
      pyGet e' key = pyGet e key) ∧
    (∀ dd, pyGet e (.kstr "data") = some (.pdict dd) →
      ∃ dd', pyGet e' (.kstr "data") = some (.pdict dd') ∧
        ∀ kk, kk ≠ .kstr "RemoteTrailers" → pyGet dd' kk = pyGet dd kk) ∧
    (pyGet e (.kstr "data") = Option.none →
      pyGet e' (.kstr "data") = Option.none)

theorem pt_result_plain (e : PyDict) (f0 : PyDict)
    (hB : f0 = [] ∨ ∃ trs, f0 = [(.kstr "trailers", .plist trs)]) :
    PTShape e (pySet e (.kstr "files") (.pdict f0)) := by
  have hdd : pyGet (pySet e (.kstr "files") (.pdict f0)) (.kstr "data") =
      pyGet e (.kstr "data") := pyGet_pySet_ne _ _ _ _ (by simp)
  refine ⟨f0, pyGet_pySet_same _ _ _, hB, ?_, ?_, ?_⟩
  · exact fun key hf _ => pyGet_pySet_ne _ _ _ _ hf
  · intro dd h
    exact ⟨dd, by rw [hdd]; exact h, fun kk _ => rfl⟩
  · intro h
    rw [hdd]
    exact h

theorem pt_result_deleted (e : PyDict) (f0 dd : PyDict)
    (hB : f0 = [] ∨ ∃ trs, f0 = [(.kstr "trailers", .plist trs)])
    (hed : pyGet e (.kstr "data") = some (.pdict dd)) :
    PTShape e (pySet (pySet e (.kstr "files") (.pdict f0)) (.kstr "data")
      (.pdict (pyDel dd (.kstr "RemoteTrailers")))) := by
  have hfd : (PyKey.kstr "files") ≠ .kstr "data" := by simp
  refine ⟨f0, ?_, hB, ?_, ?_, ?_⟩
  · rw [pyGet_pySet_ne _ _ _ _ hfd, pyGet_pySet_same]
  · intro key hf hd
    rw [pyGet_pySet_ne _ _ _ _ hd, pyGet_pySet_ne _ _ _ _ hf]
  · intro dd0 hdd0
    rw [hed] at hdd0
    have hdd1 : dd0 = dd := by
      cases hdd0
      rfl
    subst hdd1
    refine ⟨pyDel dd0 (.kstr "RemoteTrailers"), pyGet_pySet_same _ _ _, ?_⟩
    exact fun kk hkk => pyGet_pyDel_ne _ _ _ hkk
  · intro hno
    rw [hed] at hno
    cases hno

theorem parse_trailers_shape (e e' : PyDict)
    (h : parse_trailers e = .ok e') : PTShape e e' := by
  have hd0 : pyGet (pySet e (.kstr "files") (.pdict [])) (.kstr "data") =
      pyGet e (.kstr "data") := pyGet_pySet_ne _ _ _ _ (by simp)
  simp only [parse_trailers] at h
  split at h
  case h_1 heq =>
    cases h
    exact pt_result_plain e [] (Or.inl rfl)
  case h_2 dd heq =>
    have hed : pyGet e (.kstr "data") = some (.pdict dd) := by
      rw [← hd0]; exact heq
    split at h
    case h_1 hrt =>
      cases h
      exact pt_result_plain e [] (Or.inl rfl)
    case h_2 items hrt =>
      split at h
      case h_1 err heq2 => cases h
      case h_2 trs completed heq2 =>
        cases completed
        case false =>
          simp only [Bool.false_eq_true, if_false] at h
          by_cases hemp : trs.isEmpty = true
          · rw [if_pos hemp] at h
            cases h
            exact pt_result_plain e [] (Or.inl rfl)
          · rw [if_neg hemp] at h
            cases h
            rw [pySet_pySet]
            exact pt_result_plain e _ (Or.inr ⟨trs, rfl⟩)
        case true =>
          simp only [if_true] at h
          by_cases hemp : trs.isEmpty = true
          · rw [if_pos hemp] at h
            cases h
            exact pt_result_deleted e [] dd (Or.inl rfl) hed
          · rw [if_neg hemp] at h
            cases h
            rw [pySet_pySet]
            exact pt_result_deleted e _ dd (Or.inr ⟨trs, rfl⟩) hed
    case h_3 s hrt =>
      split at h
      · cases h
        exact pt_result_deleted e [] dd (Or.inl rfl) hed
      · cases h
    case h_4 dd2 hrt =>
      split at h
      · cases h
        exact pt_result_deleted e [] dd (Or.inl rfl) hed
      · cases h
    case h_5 hne1 hne2 hne3 hrt => cases h
  case h_3 val hne heq => cases h

/-! ## Claim C1: image descriptor positional contract -/

/-- C1 (counterexample): on the descriptor `/p/a*b.jpg*Primary*300*200` the
decoder returns path `/p/a` — `image[0]`, the text before the *first* `*` —
not the claimed `/p/a*b.jpg`; type, height and width do parse from the
end. -/
theorem C1_counterexample :
    get_images rowStarPath =
      .ok (.plist [.pdict [(.kstr "path", .pstr "/p/a"),
        (.kstr "type", .pstr "Primary"),
        (.kstr "height", .pint 300), (.kstr "width", .pint 200)]]) ∧
    "/p/a" ≠ "/p/a*b.jpg" := ⟨rfl, by decide⟩

/-- C1 (amended): for every `*`-split entry with at least three tokens and
numeric trailing tokens, the decoder returns the last token as width, the
second-from-last as height, the third-from-last as type, and the *first
token* as path — so a path with embedded `*` is truncated at its first
`*`, while type/height/width still parse positionally from the end. -/
theorem C1_theorem (entry : String) (hgt wid : Int)
    (h3 : 3 ≤ (pySplit entry '*').length)
    (hh : pyInt ((pySplit entry '*').getD ((pySplit entry '*').length - 2) "") =
      .ok hgt)
    (hw : pyInt ((pySplit entry '*').getD ((pySplit entry '*').length - 1) "") =
      .ok wid) :
    decodeImage entry = .ok (.pdict
      [(.kstr "path", .pstr ((pySplit entry '*').headD "")),
       (.kstr "type",
        .pstr ((pySplit entry '*').getD ((pySplit entry '*').length - 3) "")),
       (.kstr "height", .pint hgt), (.kstr "width", .pint wid)]) := by
  simp only [decodeImage]
  rw [if_neg (by omega), hh, hw]

/-- Witness for the amended C1 at a concrete descriptor. -/
theorem C1_witness :
    3 ≤ (pySplit "/p/x*Logo*10*20" '*').length ∧
    decodeImage "/p/x*Logo*10*20" = .ok (.pdict
      [(.kstr "path", .pstr ((pySplit "/p/x*Logo*10*20" '*').headD "")),
       (.kstr "type", .pstr ((pySplit "/p/x*Logo*10*20" '*').getD
         ((pySplit "/p/x*Logo*10*20" '*').length - 3) "")),
       (.kstr "height", .pint 10), (.kstr "width", .pint 20)]) :=
  ⟨by decide, C1_theorem "/p/x*Logo*10*20" 10 20 (by decide) rfl rfl⟩

/-! ## Claim C4: identifier codec error/round-trip policy -/

/-- C4 (counterexample): the malformed identifier `X'zz'` (length ≥ 4,
invalid hex) makes `toUUID` raise `ValueError` instead of degrading to an
absent result. -/
theorem C4_counterexample :
    toUUID (.pstr "X'zz'") = .error "ValueError" ∧
    toUUID (.pstr "X'zz'") ≠ .ok Option.none := by
  refine ⟨rfl, ?_⟩
  intro h
  rw [show toUUID (.pstr "X'zz'") = .error "ValueError" from rfl] at h
  cases h

/-- C4 (amended): `toUUID` returns an absent result without raising for
null input, the literal `NULL`, and any input shorter than four
characters; for a 16-byte value delivered as a quoted hex literal
`X'…32 hex digits…'` it returns the canonical hyphenated lowercase
rendering of those bytes.  (Other malformed inputs of length ≥ 4 raise,
per the counterexample.) -/
theorem C4_theorem :
    (toUUID .pnone = .ok Option.none) ∧
    (toUUID (.pstr "NULL") = .ok Option.none) ∧
    (∀ s : String, s.length < 4 → toUUID (.pstr s) = .ok Option.none) ∧
    (∀ h : String, h.data.length = 32 → h.data.all isHexChar = true →
      toUUID (.pstr ("X'" ++ h ++ "'")) =
        .ok (some ⟨uuidHyphenate (renderHex32 (hexListVal h.data))⟩)) := by
  refine ⟨rfl, rfl, ?_, ?_⟩
  · intro s hs
    simp only [toUUID]
    rw [if_pos (Or.inr (Or.inr hs))]
  · exact fun h h1 h2 => toUUID_quoted_hex h h1 h2

/-- Witness for the amended C4 at concrete inputs. -/
theorem C4_witness :
    ("ab".length < 4 ∧ toUUID (.pstr "ab") = .ok Option.none) ∧
    (("00112233445566778899AABBCCDDEEFF" : String).data.length = 32 ∧
     toUUID (.pstr ("X'" ++ "00112233445566778899AABBCCDDEEFF" ++ "'")) =
       .ok (some ⟨uuidHyphenate (renderHex32
         (hexListVal ("00112233445566778899AABBCCDDEEFF" : String).data))⟩)) :=
  ⟨⟨by decide, C4_theorem.2.2.1 "ab" (by decide)⟩,
   ⟨by decide,
    C4_theorem.2.2.2 "00112233445566778899AABBCCDDEEFF" (by decide) (by decide)⟩⟩

/-! ## Claim C8: list and map decoders -/

/-- C8: `toList` yields `[]` (never null) on an absent or empty field and
otherwise splits on the pipe; `toDict` yields the empty *list* on an
absent or empty field (the documented inconsistency) and otherwise the
mapping obtained by splitting each pipe segment on `=`. -/
theorem C8_theorem :
    (toList .pnone = .ok []) ∧ (toList (.pstr "") = .ok []) ∧
    (∀ s : String, s ≠ "" → toList (.pstr s) = .ok (pySplit s '|')) ∧
    (toDict .pnone = .ok (.plist [])) ∧ (toDict (.pstr "") = .ok (.plist [])) ∧
    (∀ s : String, s ≠ "" →
      (∀ seg ∈ pySplit s '|', (pySplit seg '=').length = 2) →
      toDict (.pstr s) = .ok (.pdict (specMapDecode s))) := by
  refine ⟨rfl, rfl, ?_, rfl, rfl, ?_⟩
  · intro s hs
    simp [toList, hs]
  · intro s hs hsegs
    simp only [toDict]
    rw [if_neg hs, toDictStep_fold _ hsegs []]
    rfl

/-- Witness for C8 at concrete delimited fields. -/
theorem C8_witness :
    ("a|b" ≠ "" ∧ toList (.pstr "a|b") = .ok (pySplit "a|b" '|')) ∧
    ("x=1|y=2" ≠ "" ∧
      toDict (.pstr "x=1|y=2") = .ok (.pdict (specMapDecode "x=1|y=2"))) :=
  ⟨⟨by decide, C8_theorem.2.2.1 "a|b" (by decide)⟩,
   ⟨by decide, C8_theorem.2.2.2.2.2 "x=1|y=2" (by decide) (by decide)⟩⟩

/-! ## Claim C2: totality of the strategies on well-formed rows -/

theorem ok_bind {α β : Type} (b : α) (f : α → Except String β) :
    (Except.ok b >>= f) = f b := rfl

theorem base_parse_data_ok (item : ItemRow) (h : dataOK item) :
    ∀ e, ∃ e', base_parse_data item e = .ok e' := by
  intro e
  unfold dataOK at h
  unfold base_parse_data
  cases hd : item "data" <;> rw [hd] at h
  case pnone => exact ⟨e, by simp [pyTruthy]⟩
  case pbool b =>
    have hb : b = false := h
    subst hb
    exact ⟨e, by simp [pyTruthy]⟩
  case pint i =>
    have hi : i = 0 := h
    subst hi
    exact ⟨e, by simp [pyTruthy]⟩
  case pstr str =>
    have h2 : str = "" ∨ ∃ v, jsonLoads str = .ok v := h
    rcases h2 with h2 | ⟨v, hv⟩
    · subst h2
      exact ⟨e, by simp⟩
    · by_cases hse : str = ""
      · exact ⟨e, by simp [hse]⟩
      · exact ⟨pySet e (.kstr "data") v, by simp [hse, hv, Except.map]⟩
  case pbytes u =>
    cases u with
    | none => exact (h : False).elim
    | some str =>
      obtain ⟨v, hv⟩ := (h : ∃ v, jsonLoads str = .ok v)
      exact ⟨pySet e (.kstr "data") v, by simp [hv, Except.map]⟩
  case plist xs =>
    have hx : xs = [] := h
    subst hx
    exact ⟨e, by simp [pyTruthy]⟩
  case pdict d =>
    have hx : d = [] := h
    subst hx
    exact ⟨e, by simp [pyTruthy]⟩

/-- C2 (counterexample): well-formed rows (every declared column present,
possibly null) on which a strategy raises instead of degrading: a null
name raises `AttributeError` in `get_names`, a non-numeric image height
raises `ValueError` at `int()`, and an undecodable quoted identifier
raises `ValueError` in `toUUID` — contradicting the claim that malformed
scalar fields degrade to null/default. -/
theorem C2_counterexample :
    genre_parse rowAllNull = .error "AttributeError" ∧
    genre_parse rowBadHeight = .error "ValueError" ∧
    default_parse rowBadGuid = .error "ValueError" := ⟨rfl, rfl, rfl⟩

/-- C2 (amended): strategy parses are *not* total on all well-formed rows —
malformed scalar fields raise (see the counterexample).  A parse returns a
`NormalizedEntity` when the row's classified fields are themselves
well-formed; representatively, the genre strategy succeeds on every row
with a textual name, decodable image descriptors, decodable identifier
and delimited-map fields, and a falsy or JSON-decodable payload. -/
theorem C2_theorem (item : ItemRow)
    (hname : ∃ s, item "name" = .pstr s)
    (himg : ∃ v, get_images item = .ok v)
    (hguid : okUUID (item "guid"))
    (hpar : okUUID (item "parentId"))
    (hext : okDict (item "externalIds"))
    (hdata : dataOK item) :
    ∃ e, genre_parse item = .ok e := by
  obtain ⟨imgs, himgs⟩ := himg
  obtain ⟨s, hs⟩ := hname
  have hn : get_names item = .ok (.plist [.pdict
      [(.kstr "name", .pstr (pyStrip s)), (.kstr "locale", .pstr "en")]]) := by
    unfold get_names
    rw [hs]
  have hsteps : ∀ k ∈ fieldsValues, ∀ e, ∃ e',
      classifyStep baseTextFields baseListFields item e k = .ok e' := by
    intro k _
    apply classifyStep_ok
    · intro hb
      simp [blobFields] at hb
      rcases hb with rfl | rfl
      · exact hguid
      · exact hpar
    · intro hl
      simp [baseListFields] at hl
    · intro hd2
      simp [dictFields] at hd2
      subst hd2
      exact hext
  obtain ⟨e1, he1⟩ := foldlM_ok_of_steps _ fieldsValues hsteps
    (pySet [(.kstr "files", .pdict [(.kstr "images", imgs)])] (.kstr "names")
      (.plist [.pdict [(.kstr "name", .pstr (pyStrip s)),
        (.kstr "locale", .pstr "en")]]))
  obtain ⟨e2, he2⟩ := base_parse_data_ok item hdata e1
  refine ⟨e2, ?_⟩
  unfold genre_parse
  rw [himgs, ok_bind, hn, ok_bind]
  unfold parse_common_fields
  rw [he1]
  exact he2

/-- Witness for the amended C2 at a fully populated well-formed row. -/
theorem C2_witness :
    (∃ s, rowGenreGood "name" = .pstr s) ∧
    ∃ e, genre_parse rowGenreGood = .ok e :=
  ⟨⟨" Drama ", rfl⟩,
   C2_theorem rowGenreGood ⟨" Drama ", rfl⟩ ⟨_, rfl⟩ ⟨_, rfl⟩ ⟨_, rfl⟩
     ⟨_, rfl⟩ (Or.inr ⟨_, rfl⟩)⟩

/-! ## Preservation lemmas for the per-strategy stages -/

theorem entityFilesGet_set_files (e : PyDict) (f : PyDict) (k2 : String) :
    entityFilesGet (pySet e (.kstr "files") (.pdict f)) k2 =
      pyGet f (.kstr k2) := by
  unfold entityFilesGet
  rw [pyGet_pySet_same]

theorem entityFilesGet_of_get (e : PyDict) (f : PyDict)
    (hf : pyGet e (.kstr "files") = some (.pdict f)) (k2 : String) :
    entityFilesGet e k2 = pyGet f (.kstr k2) := by
  unfold entityFilesGet
  rw [hf]

theorem entityFilesGet_set_other (e : PyDict) (k : PyKey) (v : PyVal)
    (hk : k ≠ .kstr "files") (k2 : String) :
    entityFilesGet (pySet e k v) k2 = entityFilesGet e k2 := by
  unfold entityFilesGet
  rw [pyGet_pySet_ne _ _ _ _ (fun hh => hk hh.symm)]

theorem filesAppend_shape (e e' : PyDict) (k : String) (v : PyVal)
    (h : filesAppend e k v = .ok e') :
    ∃ f xs, pyGet e (.kstr "files") = some (.pdict f) ∧
      e' = pySet e (.kstr "files") (.pdict (pySet f (.kstr k) (.plist xs))) := by
  unfold filesAppend at h
  split at h
  · rename_i f hf
    split at h
    · rename_i xs hxs
      cases h
      exact ⟨f, _, hf, rfl⟩
    · cases h
      exact ⟨_, _, hf, rfl⟩
    · cases h
  · cases h
  · cases h

theorem subs_fold_preserve (subs : List PyVal) :
    ∀ (e e' : PyDict),
    subs.foldlM (fun e s => filesAppend e "subtitles"
      (.pdict [(.kstr "path", s)])) e = .ok e' →
    (∀ key, key ≠ .kstr "files" → pyGet e' key = pyGet e key) ∧
    (∀ k2, k2 ≠ "subtitles" → entityFilesGet e' k2 = entityFilesGet e k2) := by
  induction subs with
  | nil =>
    intro e e' h
    cases h
    exact ⟨fun _ _ => rfl, fun _ _ => rfl⟩
  | cons s rest ih =>
    intro e e' h
    rw [List.foldlM_cons] at h
    obtain ⟨e1, he1, hrest⟩ := exceptBind_ok h
    obtain ⟨hk, hf⟩ := ih e1 e' hrest
    obtain ⟨f, xs, hfe, rfl⟩ := filesAppend_shape _ _ _ _ he1
    constructor
    · intro key hkey
      rw [hk key hkey, pyGet_pySet_ne _ _ _ _ hkey]
    · intro k2 hk2
      rw [hf k2 hk2, entityFilesGet_set_files,
        pyGet_pySet_ne _ _ _ _ (fun hh => hk2 (PyKey.kstr.inj hh)),
        entityFilesGet_of_get e f hfe]

theorem delete_data_keys_filesGet (e e' : PyDict) (keys : List String)
    (h : delete_data_keys e keys = .ok e') (k2 : String) :
    entityFilesGet e' k2 = entityFilesGet e k2 := by
  unfold entityFilesGet
  rw [delete_data_keys_preserve _ _ _ h _ (by simp)]

theorem episode_subtitles_preserve (e e' : PyDict)
    (h : episode_subtitles e = .ok e') :
    ∀ k2, k2 ≠ "subtitles" → entityFilesGet e' k2 = entityFilesGet e k2 := by
  intro k2 hk2
  simp only [episode_subtitles] at h
  split at h
  · cases h
  · rename_i dd hdd
    split at h
    · cases h
    · rename_i sf hsf
      split at h
      · split at h
        · rename_i subs
          obtain ⟨e1, he1, hdel⟩ := exceptBind_ok h
          rw [delete_data_keys_filesGet _ _ _ hdel k2]
          exact (subs_fold_preserve _ _ _ he1).2 k2 hk2
        · rename_i sstr
          obtain ⟨e1, he1, hdel⟩ := exceptBind_ok h
          rw [delete_data_keys_filesGet _ _ _ hdel k2]
          exact (subs_fold_preserve _ _ _ he1).2 k2 hk2
        · rename_i kd
          obtain ⟨e1, he1, hdel⟩ := exceptBind_ok h
          rw [delete_data_keys_filesGet _ _ _ hdel k2]
          exact (subs_fold_preserve _ _ _ he1).2 k2 hk2
        · cases h
      · exact delete_data_keys_filesGet _ _ _ h k2
  · cases h

theorem boxset_children_preserve (e e' : PyDict)
    (h : boxset_children_stage e = .ok e') :
    pyGet e' (.kstr "files") = pyGet e (.kstr "files") := by
  simp only [boxset_children_stage] at h
  split at h
  · cases h
  · rename_i dd hdd
    split at h
    · cases h
    · rename_i lc hlc
      split at h
      · split at h
        · rename_i kids
          split at h
          · cases h
          · rename_i ch hch
            rw [delete_data_keys_preserve _ _ _ h _ (by simp)]
            rw [pyGet_pySet_ne _ _ _ _ (by simp)]
        · cases h
      · cases h
        rfl
  · cases h

theorem get_images_empty (item : ItemRow)
    (himg : toList (item "images") = .ok []) :
    get_images item = .ok (.plist []) := by
  unfold get_images
  rw [himg]
  rfl

theorem tv_parse_with_images (tf : List String) (item : ItemRow) (e : PyDict)
    (h : tv_parse_with tf item = .ok e)
    (himg : toList (item "images") = .ok []) :
    entityFilesGet e "images" = some (.plist []) := by
  unfold tv_parse_with at h
  obtain ⟨e1, he1, h⟩ := exceptBind_ok h
  obtain ⟨e2, he2, h⟩ := exceptBind_ok h
  obtain ⟨imgs, himgs, h⟩ := exceptBind_ok h
  rw [get_images_empty item himg] at himgs
  cases himgs
  obtain ⟨e4, he4, h⟩ := exceptBind_ok h
  cases h
  obtain ⟨f, hf, rfl⟩ := setFilesSub_spec _ _ _ _ he4
  rw [entityFilesGet_set_other _ _ _ (by simp), entityFilesGet_set_files,
    pyGet_pySet_same]

theorem genre_parse_images (item : ItemRow) (e : PyDict)
    (h : genre_parse item = .ok e) (himg : toList (item "images") = .ok []) :
    entityFilesGet e "images" = some (.plist []) := by
  unfold genre_parse at h
  obtain ⟨imgs, himgs, h⟩ := exceptBind_ok h
  rw [get_images_empty item himg] at himgs
  cases himgs
  obtain ⟨names, hnames, h⟩ := exceptBind_ok h
  unfold parse_common_fields at h
  obtain ⟨e1, he1, hpd⟩ := exceptBind_ok h
  have hkeys : ∀ k ∈ fieldsValues, (PyKey.kstr "files") ≠ .kstr k := by
    intro k hk hh
    have h3 : "files" = k := PyKey.kstr.inj hh
    subst h3
    revert hk
    decide
  have h1 := fold_classify_preserve _ _ item fieldsValues _ _ _ he1 hkeys
  have h2 := base_parse_data_preserve item _ _ hpd (.kstr "files") (by simp)
  have h0 : pyGet (pySet [(PyKey.kstr "files",
      PyVal.pdict [(.kstr "images", PyVal.plist [])])] (.kstr "names") names)
      (.kstr "files") = some (.pdict [(.kstr "images", .plist [])]) := by
    rw [pyGet_pySet_ne _ _ _ _ (by simp)]
    rfl
  rw [entityFilesGet_of_get e _ (by rw [h2, h1]; exact h0)]
  rfl

theorem boxset_parse_images (item : ItemRow) (e : PyDict)
    (h : boxset_parse item = .ok e) (himg : toList (item "images") = .ok []) :
    entityFilesGet e "images" = some (.plist []) := by
  unfold boxset_parse at h
  obtain ⟨names, hnames, h⟩ := exceptBind_ok h
  unfold parse_common_fields at h
  obtain ⟨e1, he1, hpd⟩ := exceptBind_ok h
  unfold boxset_parse_data at hpd
  obtain ⟨e2, he2, hpd⟩ := exceptBind_ok hpd
  obtain ⟨e3, he3, hpd⟩ := exceptBind_ok hpd
  obtain ⟨imgs, himgs, hpd⟩ := exceptBind_ok hpd
  rw [get_images_empty item himg] at himgs
  cases himgs
  obtain ⟨e4, he4, hpd⟩ := exceptBind_ok hpd
  obtain ⟨e5, he5, hdel⟩ := exceptBind_ok hpd
  obtain ⟨f, hf, rfl⟩ := setFilesSub_spec _ _ _ _ he4
  have hch := boxset_children_preserve _ _ he5
  rw [pyGet_pySet_same] at hch
  have hfin := delete_data_keys_preserve _ _ _ hdel (.kstr "files") (by simp)
  rw [entityFilesGet_of_get e (pySet f (.kstr "images") (.plist []))
    (by rw [hfin, hch]), pyGet_pySet_same]

theorem episode_parse_images (item : ItemRow) (e : PyDict)
    (h : episode_parse item = .ok e) (himg : toList (item "images") = .ok []) :
    entityFilesGet e "images" = some (.plist []) := by
  unfold episode_parse at h
  obtain ⟨e1, he1, h⟩ := exceptBind_ok h
  have h1 := tv_parse_with_images _ _ _ he1 himg
  split at h
  · cases h
  · split at h
    · cases h
    · split at h
      · cases h
      · split at h
        · cases h
        · split at h
          · cases h
          · obtain ⟨e2, he2, hsub⟩ := exceptBind_ok h
            obtain ⟨f, hf, rfl⟩ := setFilesSub_spec _ _ _ _ he2
            rw [episode_subtitles_preserve _ _ hsub "images" (by decide),
              entityFilesGet_set_files,
              pyGet_pySet_ne _ _ _ _ (by simp)]
            rw [entityFilesGet_of_get e1 f hf] at h1
            exact h1
    · cases h

theorem parse_trailers_replaces (e : PyDict) (v w : PyVal) :
    parse_trailers (pySet e (.kstr "files") v) =
      parse_trailers (pySet e (.kstr "files") w) := by
  unfold parse_trailers
  rw [pySet_pySet, pySet_pySet]

/-! ## Claim C10: the `files.images` entry and the trailer container reset -/

/-- C10: every entity produced by the genre, box-set, or TV
(series/season/episode) strategy carries `files.images`, an empty list
when the row's images column is empty; and `parse_trailers`
unconditionally replaces any existing `files` value with a fresh empty
container, because `hasattr` on a plain dict is always false. -/
theorem C10_theorem :
    (∀ item e, genre_parse item = .ok e → toList (item "images") = .ok [] →
      entityFilesGet e "images" = some (.plist [])) ∧
    (∀ item e, boxset_parse item = .ok e → toList (item "images") = .ok [] →
      entityFilesGet e "images" = some (.plist [])) ∧
    (∀ item e, tv_parse item = .ok e → toList (item "images") = .ok [] →
      entityFilesGet e "images" = some (.plist [])) ∧
    (∀ item e, episode_parse item = .ok e → toList (item "images") = .ok [] →
      entityFilesGet e "images" = some (.plist [])) ∧
    (∀ e v w, parse_trailers (pySet e (.kstr "files") v) =
      parse_trailers (pySet e (.kstr "files") w)) :=
  ⟨genre_parse_images, boxset_parse_images,
   (fun item e h himg => tv_parse_with_images tvTextFields item e h himg),
   episode_parse_images, parse_trailers_replaces⟩

/-- Witness for C10: a genre row with a null images column produces an
entity with an empty `files.images` list. -/
theorem C10_witness :
    (toList (mkRow (.pstr "G") .pnone .pnone .pnone "images") = .ok []) ∧
    ((genre_parse (mkRow (.pstr "G") .pnone .pnone .pnone)).map
      (fun e => entityFilesGet e "images") = .ok (some (.plist []))) := by
  obtain ⟨e0, hp⟩ : ∃ e, genre_parse (mkRow (.pstr "G") .pnone .pnone .pnone) =
      .ok e := ⟨_, rfl⟩
  refine ⟨rfl, ?_⟩
  rw [hp]
  exact congrArg Except.ok
    (C10_theorem.1 (mkRow (.pstr "G") .pnone .pnone .pnone) e0 hp rfl)

theorem tv_parse_with_spec (tf : List String) (item : ItemRow) (e : PyDict)
    (h : tv_parse_with tf item = .ok e) (htf : "path" ∈ tf)
    (s : String) (payload : PyDict)
    (hs : item "data" = .pstr s) (hsne : s ≠ "")
    (hv : jsonLoads s = .ok (.pdict payload)) :
    pyGet e (.kstr "path") = some (item "path") ∧
    (∃ dd, pyGet e (.kstr "data") = some (.pdict dd) ∧
      ∀ kk, kk ≠ .kstr "RemoteTrailers" → pyGet dd kk = pyGet payload kk) ∧
    (∃ f, pyGet e (.kstr "files") = some (.pdict f) ∧
      pyGet f (.kstr "subtitles") = Option.none) := by
  unfold tv_parse_with at h
  obtain ⟨e1, he1, h⟩ := exceptBind_ok h
  obtain ⟨e2, he2, h⟩ := exceptBind_ok h
  obtain ⟨imgs, himgs, h⟩ := exceptBind_ok h
  obtain ⟨e4, he4, h⟩ := exceptBind_ok h
  cases h
  unfold parse_common_fields at he1
  obtain ⟨e0, he0, hbpd⟩ := exceptBind_ok he1
  have hpath0 : pyGet e0 (.kstr "path") = some (item "path") :=
    fold_classify_get_text _ _ item fieldsValues _ _ _ fieldsValues_nodup he0
      (by decide) htf
  rw [base_parse_data_pstr item e0 s hs hsne _ hv] at hbpd
  cases hbpd
  obtain ⟨f0, hf0, hshape, hpres, hdata, _⟩ := parse_trailers_shape _ _ he2
  obtain ⟨f, hf, rfl⟩ := setFilesSub_spec _ _ _ _ he4
  have hff : f = f0 := by
    rw [hf0] at hf
    exact (PyVal.pdict.inj (Option.some.inj hf)).symm
  refine ⟨?_, ?_, ?_⟩
  · rw [pyGet_pySet_ne _ _ _ _ (by simp), pyGet_pySet_ne _ _ _ _ (by simp),
      hpres _ (by simp) (by simp), pyGet_pySet_ne _ _ _ _ (by simp)]
    exact hpath0
  · obtain ⟨dd, hdd, hkk⟩ := hdata payload (by rw [pyGet_pySet_same])
    refine ⟨dd, ?_, hkk⟩
    rw [pyGet_pySet_ne _ _ _ _ (by simp), pyGet_pySet_ne _ _ _ _ (by simp)]
    exact hdd
  · refine ⟨pySet f (.kstr "images") imgs, ?_, ?_⟩
    · rw [pyGet_pySet_ne _ _ _ _ (by simp), pyGet_pySet_same]
    · rw [pyGet_pySet_ne _ _ _ _ (by simp), hff]
      rcases hshape with rfl | ⟨trs, rfl⟩
      · rfl
      · rfl

/-! ## Claim C6: TV-episode assembly -/

/-- C6: for every row parsed by the TV-episode strategy whose payload
contains `IsHD: true, Width: 1920, Height: 1080, Size: 1234,
SubtitleFiles: ["a.srt"]` and whose path is `/v/ep1.mkv`, the output's
`files.videos` is the single video record, `files.subtitles` is
`[{path: "a.srt"}]`, and the residual payload contains none of those five
keys. -/
theorem C6_theorem (item : ItemRow) (e : PyDict) (s : String)
    (payload : PyDict)
    (hparse : episode_parse item = .ok e)
    (hpath : item "path" = .pstr "/v/ep1.mkv")
    (hs : item "data" = .pstr s) (hsne : s ≠ "")
    (hv : jsonLoads s = .ok (.pdict payload))
    (hhd : pyGet payload (.kstr "IsHD") = some (.pbool true))
    (hw : pyGet payload (.kstr "Width") = some (.pint 1920))
    (hh : pyGet payload (.kstr "Height") = some (.pint 1080))
    (hsz : pyGet payload (.kstr "Size") = some (.pint 1234))
    (hsf : pyGet payload (.kstr "SubtitleFiles") =
      some (.plist [.pstr "a.srt"])) :
    entityFilesGet e "videos" = some (.plist [.pdict
      [(.kstr "path", .pstr "/v/ep1.mkv"), (.kstr "isHD", .pbool true),
       (.kstr "size", .pint 1234), (.kstr "width", .pint 1920),
       (.kstr "height", .pint 1080)]]) ∧
    entityFilesGet e "subtitles" =
      some (.plist [.pdict [(.kstr "path", .pstr "a.srt")]]) ∧
    (∀ k ∈ ["IsHD", "Width", "Height", "Size", "SubtitleFiles"],
      entityDataGet e k = Option.none) := by
  unfold episode_parse at hparse
  obtain ⟨e1, he1, h⟩ := exceptBind_ok hparse
  obtain ⟨hp1, ⟨dd, hdd, hkk⟩, ⟨f, hfi, hsub⟩⟩ :=
    tv_parse_with_spec episodeTextFields item e1 he1 (by decide) s payload
      hs hsne hv
  have hdHD : pyGet dd (.kstr "IsHD") = some (.pbool true) := by
    rw [hkk _ (by simp), hhd]
  have hdW : pyGet dd (.kstr "Width") = some (.pint 1920) := by
    rw [hkk _ (by simp), hw]
  have hdH : pyGet dd (.kstr "Height") = some (.pint 1080) := by
    rw [hkk _ (by simp), hh]
  have hdSz : pyGet dd (.kstr "Size") = some (.pint 1234) := by
    rw [hkk _ (by simp), hsz]
  have hdSF : pyGet dd (.kstr "SubtitleFiles") =
      some (.plist [.pstr "a.srt"]) := by
    rw [hkk _ (by simp), hsf]
  split at h
  · rename_i heq
    rw [hp1] at heq
    cases heq
  · rename_i pathv heq
    rw [hp1, hpath] at heq
    have hpv : pathv = .pstr "/v/ep1.mkv" := (Option.some.inj heq).symm
    subst hpv
    split at h
    · rename_i heq2
      rw [hdd] at heq2
      cases heq2
    · rename_i dd2 heq2
      rw [hdd] at heq2
      have hdd2 : dd2 = dd := (PyVal.pdict.inj (Option.some.inj heq2)).symm
      subst hdd2
      split at h
      · rename_i heq3
        rw [hdHD] at heq3
        cases heq3
      · rename_i ishd heq3
        rw [hdHD] at heq3
        have hhd2 : ishd = .pbool true := (Option.some.inj heq3).symm
        subst hhd2
        split at h
        · rename_i heq4
          rw [hdW] at heq4
          cases heq4
        · rename_i wid heq4
          rw [hdW] at heq4
          have hw2 : wid = .pint 1920 := (Option.some.inj heq4).symm
          subst hw2
          split at h
          · rename_i heq5
            rw [hdH] at heq5
            cases heq5
          · rename_i hgt heq5
            rw [hdH] at heq5
            have hh2 : hgt = .pint 1080 := (Option.some.inj heq5).symm
            subst hh2
            rw [hdSz] at h
            obtain ⟨e2, he2, hsubs⟩ := exceptBind_ok h
            obtain ⟨f1, hf1, rfl⟩ := setFilesSub_spec _ _ _ _ he2
            have hff1 : f1 = f := by
              rw [hfi] at hf1
              exact (PyVal.pdict.inj (Option.some.inj hf1)).symm
            rw [hff1] at hsubs
            have hd2 : pyGet (pySet e1 (.kstr "files")
                (.pdict (pySet f (.kstr "videos") (.plist [.pdict
                  [(.kstr "path", .pstr "/v/ep1.mkv"),
                   (.kstr "isHD", .pbool true),
                   (.kstr "size", (some (PyVal.pint 1234)).getD .pnone),
                   (.kstr "width", .pint 1920), (.kstr "height", .pint 1080)]]))))
                (.kstr "data") = some (.pdict dd2) := by
              rw [pyGet_pySet_ne _ _ _ _ (by simp)]
              exact hdd
            unfold episode_subtitles at hsubs
            split at hsubs
            · rename_i heq6
              rw [hd2] at heq6
              cases heq6
            · rename_i ddx heq6
              rw [hd2] at heq6
              have hddx : ddx = dd2 := (PyVal.pdict.inj (Option.some.inj heq6)).symm
              subst hddx
              split at hsubs
              · rename_i heq7
                rw [hdSF] at heq7
                cases heq7
              · rename_i sf heq7
                rw [hdSF] at heq7
                have hsf2 : sf = .plist [.pstr "a.srt"] :=
                  (Option.some.inj heq7).symm
                subst hsf2
                simp only [pyTruthy, List.isEmpty, Bool.not_false, if_true,
                  List.foldlM] at hsubs
                rw [filesAppend_fresh _ _ _
                    (pySet f (.kstr "videos") (.plist [.pdict
                      [(.kstr "path", .pstr "/v/ep1.mkv"),
                       (.kstr "isHD", .pbool true),
                       (.kstr "size", (some (PyVal.pint 1234)).getD .pnone),
                       (.kstr "width", .pint 1920),
                       (.kstr "height", .pint 1080)]]))
                    (pyGet_pySet_same _ _ _)
                    (by rw [pyGet_pySet_ne _ _ _ _ (by simp)]; exact hsub)]
                  at hsubs
                simp only [ok_bind] at hsubs
                refine ⟨?_, ?_, ?_⟩
                · rw [delete_data_keys_filesGet _ _ _ hsubs "videos",
                    pySet_pySet, entityFilesGet_set_files,
                    pyGet_pySet_ne _ _ _ _ (by simp), pyGet_pySet_same]
                  rfl
                · rw [delete_data_keys_filesGet _ _ _ hsubs "subtitles",
                    pySet_pySet, entityFilesGet_set_files, pyGet_pySet_same]
                · intro k hk
                  exact delete_data_keys_absent _ _ _ hsubs k hk
            · cases hsubs
    · cases h

/-- Witness for C6 at the concrete episode row of testable property 5. -/
theorem C6_witness :
    rowEpisodeFull "path" = .pstr "/v/ep1.mkv" ∧
    ((episode_parse rowEpisodeFull).map (fun e => entityFilesGet e "videos") =
      .ok (some (.plist [.pdict
        [(.kstr "path", .pstr "/v/ep1.mkv"), (.kstr "isHD", .pbool true),
         (.kstr "size", .pint 1234), (.kstr "width", .pint 1920),
         (.kstr "height", .pint 1080)]]))) ∧
    ((episode_parse rowEpisodeFull).map (fun e => entityFilesGet e "subtitles") =
      .ok (some (.plist [.pdict [(.kstr "path", .pstr "a.srt")]]))) ∧
    ((episode_parse rowEpisodeFull).map (fun e => entityDataGet e "IsHD") =
      .ok Option.none) := by
  obtain ⟨e0, hp⟩ : ∃ e, episode_parse rowEpisodeFull = .ok e := ⟨_, rfl⟩
  obtain ⟨h1, h2, h3⟩ := C6_theorem rowEpisodeFull e0
    "\x7b\"IsHD\": true, \"Width\": 1920, \"Height\": 1080, \"Size\": 1234, \"SubtitleFiles\": [\"a.srt\"]\x7d"
    [(.kstr "IsHD", .pbool true), (.kstr "Width", .pint 1920),
     (.kstr "Height", .pint 1080), (.kstr "Size", .pint 1234),
     (.kstr "SubtitleFiles", .plist [.pstr "a.srt"])]
    hp rfl rfl (by decide) rfl rfl rfl rfl rfl rfl
  refine ⟨rfl, ?_, ?_, ?_⟩
  · rw [hp]
    exact congrArg Except.ok h1
  · rw [hp]
    exact congrArg Except.ok h2
  · rw [hp]
    exact congrArg Except.ok (h3 "IsHD" (by simp))

/-! ## Claim C5: box-set pruning and children extraction -/

theorem kidDecode_some (kid : PyVal) (u : String) (p : PyVal)
    (h : kidDecode kid = some (u, p)) :
    ∃ m sId, kid = .pdict m ∧ pyGet m (.kstr "Path") = some p ∧
      pyGet m (.kstr "ItemId") = some (.pstr sId) ∧ uuidFormat sId = .ok u := by
  cases kid
  case pdict m =>
    have h2 : (match pyGet m (.kstr "ItemId") with
        | some (.pstr s) =>
          (match pyGet m (.kstr "Path") with
           | some p =>
             (match uuidFormat s with
              | .ok u => some (u, p)
              | .error _ => Option.none)
           | Option.none => Option.none)
        | _ => Option.none) = some (u, p) := h
    clear h
    cases hii : pyGet m (.kstr "ItemId") <;> rw [hii] at h2
    case none => simp at h2
    case some vId =>
      cases vId <;> simp at h2
      case pstr sId =>
        cases hpp : pyGet m (.kstr "Path") <;> rw [hpp] at h2
        case none => simp at h2
        case some pv =>
          cases huf : uuidFormat sId <;> rw [huf] at h2
          case error => simp at h2
          case ok uu =>
            simp at h2
            obtain ⟨hu, hp⟩ := h2
            exact ⟨m, sId, rfl, by rw [hpp, hp], hii, by rw [huf, hu]⟩
  all_goals cases h

theorem pyGet_append_single (d : PyDict) (k k' : PyKey) (v : PyVal)
    (hd : pyGet d k' = Option.none) (hne : k' ≠ k) :
    pyGet (d ++ [(k, v)]) k' = Option.none := by
  induction d with
  | nil =>
    simp [pyGet]
    intro hh
    exact absurd hh.symm hne
  | cons q rest ih =>
    by_cases hq : q.1 = k'
    · simp [pyGet, hq] at hd
    · simp [pyGet, hq] at hd ⊢
      exact ih hd

theorem kids_filterMap_length (kids : List PyVal)
    (h : ∀ kid ∈ kids, (kidDecode kid).isSome = true) :
    (kids.filterMap kidDecode).length = kids.length := by
  induction kids with
  | nil => rfl
  | cons kid rest ih =>
    obtain ⟨pr, hdec⟩ := Option.isSome_iff_exists.mp
      (h kid (List.mem_cons_self kid rest))
    simp [List.filterMap_cons, hdec,
      ih (fun x hx => h x (List.mem_cons_of_mem kid hx))]

theorem kidsLoop_spec (kids : List PyVal) :
    ∀ acc : PyDict,
    (∀ kid ∈ kids, (kidDecode kid).isSome = true) →
    ((kids.filterMap kidDecode).map Prod.fst).Nodup →
    (∀ u ∈ (kids.filterMap kidDecode).map Prod.fst,
      pyGet acc (.kstr u) = Option.none) →
    kidsLoop kids acc = .ok (acc ++ (kids.filterMap kidDecode).map
      (fun p => (PyKey.kstr p.1, PyVal.pdict [(.kstr "path", p.2)]))) := by
  induction kids with
  | nil => intro acc _ _ _; simp [kidsLoop]
  | cons kid rest ih =>
    intro acc hall hnd hacc
    obtain ⟨⟨u, p⟩, hdec⟩ := Option.isSome_iff_exists.mp
      (hall kid (List.mem_cons_self kid rest))
    obtain ⟨m, sId, rfl, hpathm, hitem, huf⟩ := kidDecode_some _ _ _ hdec
    have hmapcons : (((.pdict m : PyVal) :: rest).filterMap kidDecode) =
        (u, p) :: rest.filterMap kidDecode := by
      simp [List.filterMap_cons, hdec]
    rw [hmapcons] at hnd hacc ⊢
    have huacc : pyGet acc (.kstr u) = Option.none :=
      hacc u (by simp)
    have hndrest : ((rest.filterMap kidDecode).map Prod.fst).Nodup :=
      (List.nodup_cons.mp (by simpa using hnd)).2
    have hunotin : u ∉ (rest.filterMap kidDecode).map Prod.fst :=
      (List.nodup_cons.mp (by simpa using hnd)).1
    simp only [kidsLoop, hpathm, hitem, huf]
    rw [pySet_of_not_mem _ _ _ huacc]
    have hacc2 : ∀ u' ∈ (rest.filterMap kidDecode).map Prod.fst,
        pyGet (acc ++ [(PyKey.kstr u, PyVal.pdict [(.kstr "path", p)])])
          (.kstr u') = Option.none := by
      intro u' hu'
      have hu'ne : u' ≠ u := fun hh => hunotin (hh ▸ hu')
      refine pyGet_append_single _ _ _ _ (hacc u' (by simp [hu'])) ?_
      intro hh
      exact hu'ne (PyKey.kstr.inj hh)
    rw [ih (acc ++ [(PyKey.kstr u, PyVal.pdict [(.kstr "path", p)])])
      (fun x hx => hall x (List.mem_cons_of_mem _ hx)) hndrest hacc2]
    simp

/-- C5 (counterexample): on a box-set row whose payload holds an *empty*
`LinkedChildren` list, the truthiness guard skips the extraction block, so
the residual payload still contains `LinkedChildren` (and no `children`
key is produced) — contradicting the claim that the residual never
contains it. -/
theorem C5_counterexample :
    ((boxset_parse rowBoxEmptyLC).map
      (fun e => entityDataGet e "LinkedChildren") =
      .ok (some (.plist []))) ∧
    ((boxset_parse rowBoxEmptyLC).map
      (fun e => pyGet e (.kstr "children")) = .ok Option.none) ∧
    ((boxset_parse rowBoxEmptyLC).map (fun e => entityDataGet e "Width") =
      .ok Option.none) := ⟨rfl, rfl, rfl⟩

/-- C5 (amended): the residual box-set payload never contains `Width`,
`Height`, `IsHD`, `IsShortcut` or `IsRoot`; `LinkedChildren` is removed —
and the `children` map produced, with exactly one entry per child, keyed
by the canonical decoded child identifier and holding that child's path —
only when the list is present and *non-empty* (an empty list survives in
the residual payload, per the counterexample). -/
theorem C5_theorem (item : ItemRow) (e : PyDict) (s : String)
    (payload : PyDict) (kids : List PyVal)
    (hparse : boxset_parse item = .ok e)
    (hs : item "data" = .pstr s) (hsne : s ≠ "")
    (hv : jsonLoads s = .ok (.pdict payload))
    (hlc : pyGet payload (.kstr "LinkedChildren") = some (.plist kids))
    (hkne : kids ≠ [])
    (hdec : ∀ kid ∈ kids, (kidDecode kid).isSome = true)
    (hnd : ((kids.filterMap kidDecode).map Prod.fst).Nodup) :
    (∀ k ∈ ["Width", "Height", "IsHD", "IsShortcut", "IsRoot"],
      entityDataGet e k = Option.none) ∧
    entityDataGet e "LinkedChildren" = Option.none ∧
    (∃ ch : PyDict, pyGet e (.kstr "children") = some (.pdict ch) ∧
      ch = (kids.filterMap kidDecode).map
        (fun p => (PyKey.kstr p.1, PyVal.pdict [(.kstr "path", p.2)])) ∧
      ch.length = kids.length) := by
  unfold boxset_parse at hparse
  obtain ⟨names, hnames, h⟩ := exceptBind_ok hparse
  unfold parse_common_fields at h
  obtain ⟨e0, he0, hpd⟩ := exceptBind_ok h
  unfold boxset_parse_data at hpd
  obtain ⟨e2, he2, hpd⟩ := exceptBind_ok hpd
  rw [base_parse_data_pstr item e0 s hs hsne _ hv] at he2
  cases he2
  obtain ⟨e3, he3, hpd⟩ := exceptBind_ok hpd
  obtain ⟨f0, hf0, hshape, hpres, hdata, _⟩ := parse_trailers_shape _ _ he3
  obtain ⟨dd, hdd3, hkk⟩ := hdata payload (by rw [pyGet_pySet_same])
  obtain ⟨imgs, himgs, hpd⟩ := exceptBind_ok hpd
  obtain ⟨e4, he4, hpd⟩ := exceptBind_ok hpd
  obtain ⟨f, hf, rfl⟩ := setFilesSub_spec _ _ _ _ he4
  obtain ⟨e5, he5, hdel⟩ := exceptBind_ok hpd
  have hd4 : pyGet (pySet e3 (.kstr "files")
      (.pdict (pySet f (.kstr "images") imgs))) (.kstr "data") =
      some (.pdict dd) := by
    rw [pyGet_pySet_ne _ _ _ _ (by simp)]
    exact hdd3
  have hlcd : pyGet dd (.kstr "LinkedChildren") = some (.plist kids) := by
    rw [hkk _ (by simp), hlc]
  have htr : pyTruthy (.plist kids) = true := by
    cases kids with
    | nil => exact absurd rfl hkne
    | cons a l => rfl
  have hkl := kidsLoop_spec kids [] hdec hnd (fun u _ => rfl)
  rw [List.nil_append] at hkl
  have hch : boxset_children_stage (pySet e3 (.kstr "files")
      (.pdict (pySet f (.kstr "images") imgs))) =
      delete_data_keys (pySet (pySet e3 (.kstr "files")
        (.pdict (pySet f (.kstr "images") imgs))) (.kstr "children")
        (.pdict ((kids.filterMap kidDecode).map
          (fun p => (PyKey.kstr p.1, PyVal.pdict [(.kstr "path", p.2)])))))
      ["LinkedChildren"] := by
    unfold boxset_children_stage
    rw [hd4]
    simp only [hlcd, htr, if_true, hkl]
  rw [hch] at he5
  refine ⟨?_, ?_, ?_⟩
  · intro k hk
    exact delete_data_keys_absent _ _ _ hdel k hk
  · rw [delete_data_keys_other _ _ _ hdel "LinkedChildren" (by decide)]
    exact delete_data_keys_absent _ _ _ he5 "LinkedChildren" (by simp)
  · refine ⟨(kids.filterMap kidDecode).map
      (fun p => (PyKey.kstr p.1, PyVal.pdict [(.kstr "path", p.2)])), ?_, rfl, ?_⟩
    · rw [delete_data_keys_preserve _ _ _ hdel _ (by simp),
        delete_data_keys_preserve _ _ _ he5 _ (by simp),
        pyGet_pySet_same]
    · rw [List.length_map, kids_filterMap_length kids hdec]

set_option maxRecDepth 10000 in
/-- Witness for the amended C5 at the two-child box-set row. -/
theorem C5_witness :
    ((boxset_parse rowBoxKids).map (fun e => pyGet e (.kstr "children")) =
      .ok (some (.pdict
        [(.kstr "00112233-4455-6677-8899-aabbccddeeff",
          .pdict [(.kstr "path", .pstr "/c1")]),
         (.kstr "ffeeddcc-bbaa-9988-7766-554433221100",
          .pdict [(.kstr "path", .pstr "/c2")])]))) ∧
    ((boxset_parse rowBoxKids).map (fun e => entityDataGet e "Width") =
      .ok Option.none) ∧
    ((boxset_parse rowBoxKids).map
      (fun e => entityDataGet e "LinkedChildren") = .ok Option.none) := by
  obtain ⟨e0, hp⟩ : ∃ e, boxset_parse rowBoxKids = .ok e := ⟨_, rfl⟩
  obtain ⟨h1, h2, ⟨ch, hch, hcheq, hlen⟩⟩ := C5_theorem rowBoxKids e0
    "\x7b\"LinkedChildren\": [\x7b\"ItemId\": \"00112233445566778899aabbccddeeff\", \"Path\": \"/c1\"\x7d, \x7b\"ItemId\": \"ffeeddccbbaa99887766554433221100\", \"Path\": \"/c2\"\x7d], \"IsRoot\": false, \"Width\": 1, \"Height\": 2, \"IsHD\": true, \"IsShortcut\": false\x7d"
    [(.kstr "LinkedChildren", .plist
       [.pdict [(.kstr "ItemId", .pstr "00112233445566778899aabbccddeeff"),
                (.kstr "Path", .pstr "/c1")],
        .pdict [(.kstr "ItemId", .pstr "ffeeddccbbaa99887766554433221100"),
                (.kstr "Path", .pstr "/c2")]]),
     (.kstr "IsRoot", .pbool false), (.kstr "Width", .pint 1),
     (.kstr "Height", .pint 2), (.kstr "IsHD", .pbool true),
     (.kstr "IsShortcut", .pbool false)]
    [.pdict [(.kstr "ItemId", .pstr "00112233445566778899aabbccddeeff"),
             (.kstr "Path", .pstr "/c1")],
     .pdict [(.kstr "ItemId", .pstr "ffeeddccbbaa99887766554433221100"),
             (.kstr "Path", .pstr "/c2")]]
    hp rfl (by decide) rfl rfl (by simp) (by decide) (by decide)
  refine ⟨?_, ?_, ?_⟩
  · rw [hp]
    refine congrArg Except.ok ?_
    show pyGet e0 (.kstr "children") = _
    rw [hch, hcheq]
    rfl
  · rw [hp]
    exact congrArg Except.ok (h1 "Width" (by simp))
  · rw [hp]
    exact congrArg Except.ok h2

/-! ## Claim C3: missing optional payload keys -/

/-- C3 (counterexample): a missing `LinkedChildren` (box set) and a
missing `IsHD`, `Width`, `Height` or `SubtitleFiles` (TV episode) raise
`KeyError` on concrete well-formed rows instead of being treated as
absent. -/
theorem C3_counterexample :
    boxset_parse rowBoxNoLC = .error "KeyError" ∧
    episode_parse rowEpisodeNoIsHD = .error "KeyError" ∧
    episode_parse rowEpisodeNoWidth = .error "KeyError" ∧
    episode_parse rowEpisodeNoHeight = .error "KeyError" ∧
    episode_parse rowEpisodeNoSubs = .error "KeyError" :=
  ⟨rfl, rfl, rfl, rfl, rfl⟩

/-- C3 (amended): only `RemoteTrailers` (trailer extraction) and `Size`
(the episode video record, read with `.get`) tolerate absence — a missing
`RemoteTrailers` leaves the payload untouched with an empty fresh `files`
container, and a missing `Size` degrades to a null `size`; missing
`SubtitleFiles`, `LinkedChildren`, `IsHD`, `Width` or `Height` raise
`KeyError` (per the counterexample). -/
theorem C3_theorem :
    (∀ e : PyDict, pyGet e (.kstr "data") = Option.none →
      parse_trailers e = .ok (pySet e (.kstr "files") (.pdict []))) ∧
    (∀ (e : PyDict) (dd : PyDict),
      pyGet e (.kstr "data") = some (.pdict dd) →
      pyGet dd (.kstr "RemoteTrailers") = Option.none →
      parse_trailers e = .ok (pySet e (.kstr "files") (.pdict []))) ∧
    ((episode_parse rowEpisodeNoSize).map
      (fun e => entityFilesGet e "videos") = .ok (some (.plist [.pdict
        [(.kstr "path", .pstr "/v/e.mkv"), (.kstr "isHD", .pbool false),
         (.kstr "size", .pnone), (.kstr "width", .pint 640),
         (.kstr "height", .pint 480)]]))) := by
  refine ⟨?_, ?_, rfl⟩
  · intro e he
    simp only [parse_trailers]
    rw [pyGet_pySet_ne _ _ _ _ (by simp), he]
  · intro e dd he hrt
    simp only [parse_trailers]
    rw [pyGet_pySet_ne _ _ _ _ (by simp), he]
    simp [hrt]

/-- Witness for the amended C3: both trailer-absence branches at concrete
entities. -/
theorem C3_witness :
    (pyGet ([] : PyDict) (.kstr "data") = Option.none ∧
     parse_trailers [] = .ok (pySet [] (.kstr "files") (.pdict []))) ∧
    (pyGet [(PyKey.kstr "data", PyVal.pdict [(.kstr "Name", .pstr "x")])]
        (.kstr "data") = some (.pdict [(.kstr "Name", .pstr "x")]) ∧
     parse_trailers [(PyKey.kstr "data", PyVal.pdict [(.kstr "Name", .pstr "x")])] =
       .ok (pySet [(PyKey.kstr "data", PyVal.pdict [(.kstr "Name", .pstr "x")])]
         (.kstr "files") (.pdict []))) :=
  ⟨⟨rfl, C3_theorem.1 [] rfl⟩,
   ⟨rfl, C3_theorem.2.1 [(PyKey.kstr "data", PyVal.pdict [(.kstr "Name", .pstr "x")])]
     [(.kstr "Name", .pstr "x")] rfl rfl⟩⟩

/-! ## Claim C7: the wire round trip of the assembled document -/

theorem jsonSafeList_mem (ys : List PyVal) (h : jsonSafeList ys = true) :
    ∀ y ∈ ys, jsonSafe y = true := by
  induction ys with
  | nil => intro y hy; cases hy
  | cons y rest ih =>
    rw [jsonSafeList, Bool.and_eq_true] at h
    intro z hz
    rcases List.mem_cons.mp hz with rfl | hz2
    · exact h.1
    · exact ih h.2 z hz2

theorem jsonSafeDict_mem (es : List (PyKey × PyVal))
    (h : jsonSafeDict es = true) : ∀ p ∈ es, jsonSafe p.2 = true := by
  induction es with
  | nil => intro p hp; cases hp
  | cons q rest ih =>
    obtain ⟨k, v⟩ := q
    rw [jsonSafeDict, Bool.and_eq_true] at h
    intro p hp
    rcases List.mem_cons.mp hp with rfl | hp2
    · exact h.1
    · exact ih h.2 p hp2

theorem jsonRT_id_all (n : Nat) :
    ∀ v : PyVal, sizeOf v ≤ n → jsonSafe v = true → jsonRT v = .ok v := by
  induction n using Nat.strong_induction_on with
  | _ n ih =>
    intro v hs hsafe
    have hlist : ∀ (ys : List PyVal),
        (∀ y ∈ ys, sizeOf y < n ∧ jsonSafe y = true) →
        jsonRTList ys = .ok ys := by
      intro ys
      induction ys with
      | nil => intro _; rfl
      | cons y rest ihl =>
        intro hy
        obtain ⟨hsy, hsafey⟩ := hy y (List.mem_cons_self y rest)
        have h1 : jsonRT y = .ok y := ih (sizeOf y) hsy y (Nat.le_refl _) hsafey
        have h2 : jsonRTList rest = .ok rest :=
          ihl (fun z hz => hy z (List.mem_cons_of_mem y hz))
        rw [jsonRTList, h1, h2]
    have hdict : ∀ (es : List (PyKey × PyVal)) (acc : PyDict),
        (∀ p ∈ es, sizeOf p.2 < n ∧ jsonSafe p.2 = true ∧ p.1 ≠ PyKey.knone) →
        ((es.map Prod.fst).Nodup) →
        (∀ p ∈ es, pyGet acc p.1 = Option.none) →
        jsonRTDict es acc = .ok (acc ++ es) := by
      intro es
      induction es with
      | nil => intro acc _ _ _; simp [jsonRTDict]
      | cons q rest ihd =>
        obtain ⟨k, v⟩ := q
        intro acc hall hnd hacc
        obtain ⟨hsv, hsafev, hkne⟩ := hall (k, v) (List.mem_cons_self _ rest)
        have h1 : jsonRT v = .ok v := ih (sizeOf v) hsv v (Nat.le_refl _) hsafev
        have hco : jsonKeyCoerce k = k := by
          cases k with
          | knone => exact absurd rfl hkne
          | kstr u => rfl
        have hnd2 := hnd
        rw [List.map_cons, List.nodup_cons] at hnd2
        have hknotin : k ∉ rest.map Prod.fst := hnd2.1
        have hset : pySet acc k v = acc ++ [(k, v)] :=
          pySet_of_not_mem _ _ _ (hacc (k, v) (List.mem_cons_self _ rest))
        have hacc2 : ∀ p ∈ rest, pyGet (acc ++ [(k, v)]) p.1 = Option.none := by
          intro p hp
          have hpk : p.1 ≠ k := by
            intro hh
            exact hknotin (hh ▸ List.mem_map_of_mem Prod.fst hp)
          exact pyGet_append_single _ _ _ _ (hacc p (List.mem_cons_of_mem _ hp)) hpk
        rw [jsonRTDict, h1]
        show jsonRTDict rest (pySet acc (jsonKeyCoerce k) v) = _
        rw [hco, hset,
          ihd (acc ++ [(k, v)])
            (fun p hp => hall p (List.mem_cons_of_mem _ hp)) hnd2.2 hacc2]
        simp
    cases v with
    | pnone => rfl
    | pbool b => rfl
    | pint i => rfl
    | pstr s => rfl
    | pbytes u => cases hsafe
    | plist xs =>
      have hxs : ∀ y ∈ xs, sizeOf y < n ∧ jsonSafe y = true := by
        intro y hy
        constructor
        · have h1 : sizeOf y < sizeOf xs := List.sizeOf_lt_of_mem hy
          have h2 : sizeOf (PyVal.plist xs) = 1 + sizeOf xs := by simp
          omega
        · exact jsonSafeList_mem xs (by simpa [jsonSafe] using hsafe) y hy
      rw [jsonRT, hlist xs hxs]
      rfl
    | pdict es2 =>
      rw [jsonSafe, Bool.and_eq_true, Bool.and_eq_true] at hsafe
      obtain ⟨⟨hnd, hnone⟩, hvals⟩ := hsafe
      have hes : ∀ p ∈ es2, sizeOf p.2 < n ∧ jsonSafe p.2 = true ∧
          p.1 ≠ PyKey.knone := by
        intro p hp
        refine ⟨?_, jsonSafeDict_mem es2 hvals p hp, ?_⟩
        · have h1 : sizeOf p < sizeOf es2 := List.sizeOf_lt_of_mem hp
          have h2 : sizeOf (PyVal.pdict es2) = 1 + sizeOf es2 := by simp
          have h3 : sizeOf p.2 < sizeOf p := by
            obtain ⟨a, b⟩ := p
            simp
          omega
        · intro hh
          have hx := List.all_eq_true.mp hnone p.1
            (List.mem_map_of_mem Prod.fst hp)
          rw [hh] at hx
          simp at hx
      rw [jsonRT, hdict es2 [] hes (of_decide_eq_true hnd) (fun p _ => rfl)]
      rfl

theorem jsonRT_id (v : PyVal) (h : jsonSafe v = true) : jsonRT v = .ok v :=
  jsonRT_id_all (sizeOf v) v (Nat.le_refl _) h

/-- C7 (counterexample): assembling a `People` table whose `ItemId` is the
SQL `NULL` literal yields a `None` identifier key; `json.dumps` renders it
as the string key `"null"`, so the decoded document is *not* deep-equal
to the pre-round-trip structure. -/
theorem C7_counterexample :
    assemble [] [] [] [pplNullRow] ≠ assembleRaw [] [] [] [pplNullRow] := by
  intro h
  have h1 : (assemble [] [] [] [pplNullRow]).map
      (fun d => (sectionGet d "people" "null").isSome) = .ok true := rfl
  have h2 : (assembleRaw [] [] [] [pplNullRow]).map
      (fun d => (sectionGet d "people" "null").isSome) = .ok false := rfl
  rw [h] at h1
  have h3 := h1.symm.trans h2
  exact absurd (Except.ok.inj h3) (by decide)

/-- C7 (amended): the wire round trip is deep-equal to the pre-round-trip
structure whenever the assembled document is JSON-safe — every dict key a
string bound once, no byte strings.  (A `None` key from an undecodable
identifier re-decodes as the string `"null"`, so such documents are not
fixed points, per the counterexample.) -/
theorem C7_theorem :
    (∀ v : PyVal, jsonSafe v = true → jsonRT v = .ok v) ∧
    (∀ (itemRows : List ItemRow) (eavRows : List EavRow)
      (ancRows : List AncestorRow) (pplRows : List PeopleRow)
      (raw : PyVal),
      assembleRaw itemRows eavRows ancRows pplRows = .ok raw →
      jsonSafe raw = true →
      assemble itemRows eavRows ancRows pplRows = .ok raw) := by
  refine ⟨jsonRT_id, ?_⟩
  intro itemRows eavRows ancRows pplRows raw hraw hsafe
  unfold assemble
  rw [hraw]
  show jsonRT raw = .ok raw
  exact jsonRT_id raw hsafe

/-- Witness for the amended C7 at a concrete JSON-safe value. -/
theorem C7_witness :
    jsonSafe (.pdict [(.kstr "a", .pint 1), (.kstr "b", .plist [.pnone])]) =
      true ∧
    jsonRT (.pdict [(.kstr "a", .pint 1), (.kstr "b", .plist [.pnone])]) =
      .ok (.pdict [(.kstr "a", .pint 1), (.kstr "b", .plist [.pnone])]) :=
  ⟨rfl, C7_theorem.1 _ rfl⟩

/-! ## Claim C9: canonical identifiers in the final document -/

/-- C9 (counterexample): the final document can carry the non-UUID key
`"null"` — an undecodable identifier decodes to `None` and the final wire
round trip renders it as the string `"null"` — so not every non-null
identifier key is a canonical UUID string. -/
theorem C9_counterexample :
    ((assemble [] [] [] [pplNullRow]).map
      (fun d => (sectionGet d "people" "null").isSome) = .ok true) ∧
    isCanonicalUUID "null" = false := ⟨rfl, rfl⟩

/-- C9 (amended): every identifier the codec decodes successfully — the
only identifiers filed under document keys besides the `"null"`
placeholder — is a canonical lowercase hyphenated 8-4-4-4-12 UUID string,
both through `toUUID` (quoted blob columns) and through `uuidFormat`
(box-set child identifiers). -/
theorem C9_theorem :
    (∀ (s : PyVal) (u : String), toUUID s = .ok (some u) →
      isCanonicalUUID u = true) ∧
    (∀ (s u : String), uuidFormat s = .ok u → isCanonicalUUID u = true) :=
  ⟨toUUID_canonical, uuidFormat_canonical⟩

/-- Witness for the amended C9 at a concrete quoted identifier. -/
theorem C9_witness :
    toUUID (.pstr "X'00112233445566778899AABBCCDDEEFF'") =
      .ok (some "00112233-4455-6677-8899-aabbccddeeff") ∧
    isCanonicalUUID "00112233-4455-6677-8899-aabbccddeeff" = true :=
  ⟨rfl, C9_theorem.1 (.pstr "X'00112233445566778899AABBCCDDEEFF'") _ rfl⟩
